import Mathlib

/-!
# udeploy: ECS state aggregation and scaling

A shallow embedding of `component/integration/aws/service/populate.go`
(`Populate`, `getRegion`, `getError`, `getTaskDetails`, `getTaskError`,
`isPending`, `isRunning`, `getServiceInfo`) and of
`component/integration/aws/event/scale.go` (`Scale`, `stopTasks`), followed by
the properties established about them.

Modelling conventions.

* A Go `error` is its message; `nil` is `none : Option Err`.
* `int64` counters are `Int`; they are only compared and copied, never added.
* A pointer the source tests against `nil` (`StopCode`, `StoppedReason`,
  `NextToken`) or merely copies (`LaunchType`, `Group`, `TaskArn`, ...) is an
  `Option`. So are the optional records of an event target
  (`Target.EcsParameters`, `EcsParameters.NetworkConfiguration`,
  `NetworkConfiguration.AwsvpcConfiguration`), which `Scale` dereferences
  without a test: reading through an absent one is the outcome
  `Outcome.faulted` (the Go run-time panic on a nil pointer).
* A field every response of the service carries and the source dereferences
  (`*svc.DesiredCount`, `*t.ResourceId`, `*td.TaskDefinitionArn`, ...) is a
  plain value.
* The remote AWS clients are records of response functions. A function that
  issues mutating requests (`Scale`) additionally returns the list of requests
  it sent, in order.
* The only unbounded recursion, `getTaskDetails`, carries a fuel argument that
  bounds the recursion depth; `none` means the fuel ran out.
-/

namespace Udeploy

/-- Message of a Go `error` value. -/
abbrev Err := String

/-! ## Data model -/

/-- The fields of `ecs.Task` the sources read. -/
structure Task where
  taskArn : Option String := none
  stopCode : Option String := none
  stoppedReason : Option String := none
deriving DecidableEq, Repr

/-- The fields of `ecs.Service` the sources read; `deployments` holds one entry
per deployment. -/
structure Service where
  deployments : List String := []
  desiredCount : Int := 0
  runningCount : Int := 0
  pendingCount : Int := 0
  taskDefinition : String := ""
deriving DecidableEq, Repr

/-- The field of `ecs.TaskDefinition` the sources read. -/
structure TaskDefinition where
  taskDefinitionArn : String := ""
deriving DecidableEq, Repr

/-- The fields of `applicationautoscaling.ScalableTarget` the sources read. -/
structure ScalableTarget where
  resourceId : String
  minCapacity : Int
deriving DecidableEq, Repr

/-- The record `app.Link`. -/
structure Link where
  generated : Bool := false
  description : String := ""
  name : String := ""
  url : String := ""
deriving DecidableEq, Repr

/-- The record `app.State`; the defaults are Go's zero values, so `{}` is
`app.State{}`. -/
structure State where
  isPending : Bool := false
  isRunning : Bool := false
  desiredCount : Int := 0
  version : String := ""
  error : Option Err := none
deriving DecidableEq, Repr

/-- The part `Task` of `app.Instance`: the image-tag expression, the derived
definition and the per-task details, the latter two kept as serialised text. -/
structure TaskSpec where
  imageTagEx : String := ""
  definition : String := ""
  tasksInfo : List String := []
deriving DecidableEq, Repr

/-- The record `app.Instance`. -/
structure Instance where
  cluster : String := ""
  service : String := ""
  eventRule : String := ""
  task : TaskSpec := {}
  links : List Link := []
  currentState : State := {}
deriving DecidableEq, Repr

/-- Modelled from the spec: the method `SetState` of `app.Instance` (package
`component/app`, whose source is not part of these files) stores the given
snapshot as the instance's mutable state. -/
def Instance.SetState (i : Instance) (state : State) : Instance :=
  { i with currentState := state }

/-- Request `ecs.ListTasksInput`. -/
structure ListTasksInput where
  cluster : String
  serviceName : String
  desiredStatus : String
  nextToken : Option String := none
deriving DecidableEq, Repr

/-- Response `ecs.ListTasksOutput`. -/
structure ListTasksOutput where
  taskArns : List String := []
  nextToken : Option String := none
deriving DecidableEq, Repr

/-- Record `ecs.AwsVpcConfiguration`. -/
structure AwsVpcConfiguration where
  assignPublicIp : Option String := none
  securityGroups : List String := []
  subnets : List String := []
deriving DecidableEq, Repr

/-- Record `ecs.NetworkConfiguration` (the same shape as
`cloudwatchevents.NetworkConfiguration`); the VPC part is an optional
pointer. -/
structure NetworkConfiguration where
  awsvpcConfiguration : Option AwsVpcConfiguration := none
deriving DecidableEq, Repr

/-- Record `cloudwatchevents.EcsParameters`; the network configuration is an
optional pointer, absent for targets that are not in `awsvpc` network mode. -/
structure EcsParameters where
  taskDefinitionArn : Option String := none
  launchType : Option String := none
  group : Option String := none
  networkConfiguration : Option NetworkConfiguration := none
deriving DecidableEq, Repr

/-- Record `cloudwatchevents.Target`; the ECS parameters are an optional
pointer, absent for targets that are not ECS tasks. -/
structure Target where
  ecsParameters : Option EcsParameters := none
deriving DecidableEq, Repr

/-- Request `ecs.RunTaskInput`. -/
structure RunTaskInput where
  cluster : String
  count : Int
  launchType : Option String
  group : Option String
  networkConfiguration : NetworkConfiguration
  taskDefinition : Option String
  startedBy : String
deriving DecidableEq, Repr

/-- Request `ecs.StopTaskInput`. -/
structure StopTaskInput where
  cluster : String
  reason : String
  task : Option String
deriving DecidableEq, Repr

/-- The record `model.User`, of which only the e-mail address is read. -/
structure User where
  email : String
deriving DecidableEq, Repr

/-- The ECS client `*ecs.ECS`: one response function per operation. -/
structure Ecs where
  listTasks : ListTasksInput → Except Err ListTasksOutput
  describeTasks : String → List String → Except Err (List Task)
  describeServices : String → List String → Except Err (List Service)
  describeTaskDefinition : String → Except Err TaskDefinition
  runTask : RunTaskInput → Option Err

/-- Functions of the packages `component/app` and
`component/integration/aws/task` that the sources call and whose bodies are not
part of these files; they are parameters of the development. -/
structure Helpers where
  definitionFrom : TaskDefinition → String → String
  formatVersion : Instance → String
  taskList : Instance → Ecs → Option String → Except Err (List Task)
  getTasksInfo : Instance → Ecs → List String × Option Err

/-- The constant `ecs.TaskStopCodeUserInitiated` of the AWS SDK. -/
def TaskStopCodeUserInitiated : String := "UserInitiated"

/-! ## Health classification -/

/-- Source `isPending`. -/
def isPending (svc : Service) : Bool :=
  (decide (svc.deployments.length > 1) && decide (svc.desiredCount > 0))
    || decide (svc.pendingCount > 0)
    || decide (svc.desiredCount ≠ svc.runningCount)

/-- Source `isRunning`. -/
def isRunning (svc : Service) : Bool :=
  decide (svc.runningCount > 0) && decide (svc.runningCount ≥ svc.desiredCount)

/-! ## Failure-reason resolution -/

/-- One iteration of the loop of `getTaskError` on the pair `(count, reason)`. -/
def getTaskErrorStep (acc : Nat × Option Err) (t : Task) : Nat × Option Err :=
  match t.stopCode, t.stoppedReason with
  | some code, some why =>
    if code ≠ TaskStopCodeUserInitiated then (acc.1 + 1, some why) else acc
  | _, _ => acc

/-- Source `getTaskError`: the loop runs over the tasks in order, starting from
`count = 0` and a nil `reason`. -/
def getTaskError (tasks : List Task) : Nat × Option Err :=
  tasks.foldl getTaskErrorStep (0, none)

/-- Source `getTaskDetails`. The recursive call is `getTaskDetails(svc, inst,
tasks, nextToken)`: it passes on the token this call received. -/
def getTaskDetails (svc : Ecs) (inst : Instance) :
    Nat → List Task → String → Option (Except Err (List Task))
  | 0, _, _ => none
  | fuel + 1, tasks, nextToken =>
    let input : ListTasksInput :=
      { cluster := inst.cluster
        serviceName := inst.service
        desiredStatus := "STOPPED"
        nextToken := if nextToken.length > 0 then some nextToken else none }
    match svc.listTasks input with
    | .error err => some (.error err)
    | .ok stoppedTasks =>
      let appended : Except Err (List Task) :=
        if stoppedTasks.taskArns.length > 0 then
          match svc.describeTasks inst.cluster stoppedTasks.taskArns with
          | .error err => .error err
          | .ok taskDetails => .ok (tasks ++ taskDetails)
        else .ok tasks
      match appended with
      | .error err => some (.error err)
      | .ok tasks =>
        match stoppedTasks.nextToken with
        | none => some (.ok tasks)
        | some tok =>
          if tok.length = 0 then some (.ok tasks)
          else getTaskDetails svc inst fuel tasks nextToken

/-- The text `fmt.Errorf("%d failed task(s) (%s)", count, err)` produces. -/
def failedTasksMessage (count : Nat) (reason : Err) : Err :=
  toString count ++ " failed task(s) (" ++ reason ++ ")"

/-- Source `getError`; the outer `Option` is the fuel of `getTaskDetails`. -/
def getError (svc : Ecs) (inst : Instance) (fuel : Nat) : Option (Option Err) :=
  match getTaskDetails svc inst fuel [] "" with
  | none => none
  | some (.error err) => some (some err)
  | some (.ok tasks) =>
    match getTaskError tasks with
    | (count, some err) => some (some (failedTasksMessage count err))
    | (_, none) => some none

/-! ## Region extraction -/

/-- One item of a regular expression: a character class matched exactly once,
or a character class under the greedy repetition `*`. -/
inductive Atom where
  | one (cls : Char → Bool)
  | star (cls : Char → Bool)

/-- Greedy repetition with backtracking: take one more character of the class
when the rest of the pattern `k` can still match afterwards, otherwise hand over
to `k` here. -/
def starLoop (cls : Char → Bool) (k : List Char → Option (List Char)) :
    List Char → Option (List Char)
  | [] => k []
  | c :: cs =>
    if cls c then
      match starLoop cls k cs with
      | some m => some (c :: m)
      | none => k (c :: cs)
    else k (c :: cs)

/-- The text a pattern matches at the very start of the input, under the
leftmost-first (backtracking) discipline of Go's `regexp`. -/
def matchHere : List Atom → List Char → Option (List Char)
  | [], _ => some []
  | Atom.one cls :: rest, s =>
    match s with
    | [] => none
    | c :: cs => if cls c then (matchHere rest cs).map (fun m => c :: m) else none
  | Atom.star cls :: rest, s => starLoop cls (matchHere rest) s

/-- The leftmost match of a pattern in the input (`FindStringSubmatch`, whole
match). -/
def findSubmatch (pat : List Atom) : List Char → Option (List Char)
  | [] => matchHere pat []
  | c :: cs =>
    match matchHere pat (c :: cs) with
    | some m => some m
    | none => findSubmatch pat cs

/-- Character class `[a-z]`. -/
def isLower (c : Char) : Bool := decide ('a' ≤ c) && decide (c ≤ 'z')

/-- Character class `[0-9]`. -/
def isDigit (c : Char) : Bool := decide ('0' ≤ c) && decide (c ≤ '9')

/-- The literal character `-`. -/
def isDash (c : Char) : Bool := c == '-'

/-- The expression `([a-z]{2}-[a-z]*-[0-9]{1})` of `getRegion`; its only group
is the whole match. -/
def regionPattern : List Atom :=
  [Atom.one isLower, Atom.one isLower, Atom.one isDash, Atom.star isLower,
   Atom.one isDash, Atom.one isDigit]

/-- Source `getRegion`. -/
def getRegion (arn : String) : Except Err String :=
  match findSubmatch regionPattern arn.toList with
  | none => .error "failed to get region"
  | some m =>
    if m.length > 0 then .ok (String.mk m) else .error "failed to get region"

/-- The shape the specification gives for a region token: two lowercase
letters, a dash, at least `least` lowercase letters, a dash, one digit. The
specification's pattern `[a-z]{2}-[a-z]+-[0-9]` is `RegionShaped 1`. -/
def RegionShaped (least : Nat) (m : List Char) : Prop :=
  ∃ a b mid d, isLower a = true ∧ isLower b = true ∧ (∀ c ∈ mid, isLower c = true) ∧
    least ≤ mid.length ∧ isDigit d = true ∧ m = a :: b :: '-' :: (mid ++ ['-', d])

/-- The text `m` is the leftmost substring of `s` with property `P`. -/
def LeftmostSubstring (P : List Char → Prop) (s m : List Char) : Prop :=
  ∃ pre post, s = pre ++ m ++ post ∧ P m ∧
    ∀ pre2 m2 post2, s = pre2 ++ m2 ++ post2 → P m2 → pre.length ≤ pre2.length

/-- Some substring of `s` has property `P`. -/
def HasSubstring (P : List Char → Prop) (s : List Char) : Prop :=
  ∃ pre m post, s = pre ++ m ++ post ∧ P m

/-! ## Service inspection -/

/-- Source `getServiceInfo`. -/
def getServiceInfo (inst : Instance) (svc : Ecs) : Except Err (TaskDefinition × Service) :=
  match svc.describeServices inst.cluster [inst.service] with
  | .error err => .error err
  | .ok services =>
    if services.length = 0 then
      .error ("service not found with name " ++ inst.service)
    else if services.length > 1 then
      .error ("too many services returned for " ++ inst.service)
    else
      match services with
      | [] => .error ("service not found with name " ++ inst.service)
      | s0 :: _ =>
        match svc.describeTaskDefinition s0.taskDefinition with
        | .error err => .error err
        | .ok td => .ok (td, s0)

/-! ## State aggregation -/

/-- The text `fmt.Sprintf("service/%s/%s", i.Cluster, i.Service)`. -/
def resourceId (i : Instance) : String :=
  "service/" ++ i.cluster ++ "/" ++ i.service

/-- The generated link to the service logs in the AWS console. -/
def logsLink (region : String) (i : Instance) : Link :=
  { generated := true
    description := "AWS Console Service Logs"
    name := "logs"
    url := "https://console.aws.amazon.com/ecs/home?region=" ++ region ++ "#/clusters/"
      ++ i.cluster ++ "/services/" ++ i.service ++ "/logs" }

/-- One iteration of the loop over `ao.ScalableTargets` in `Populate`. -/
def matchTarget (i : Instance) (state : State) (t : ScalableTarget) : State :=
  if t.resourceId = resourceId i then { state with desiredCount := t.minCapacity } else state

/-- The assignment `innerInstance.Task.Definition = app.DefinitionFrom(td,
innerInstance.Task.ImageTagEx)`. -/
def withDefinition (h : Helpers) (td : TaskDefinition) (i : Instance) : Instance :=
  { i with task := { i.task with definition := h.definitionFrom td i.task.imageTagEx } }

/-- The body of the goroutine `Populate` starts for one instance; the value is
the instance it publishes on the channel, `none` when it never publishes. -/
def populateUnit (h : Helpers) (svc : Ecs) (ao : List ScalableTarget) (details : Bool)
    (fuel : Nat) (innerInstance : Instance) : Option Instance :=
  let state : State := {}
  match getServiceInfo innerInstance svc with
  | .error err => some (innerInstance.SetState { state with error := some err })
  | .ok (td, svcs) =>
    let innerInstance : Instance := withDefinition h td innerInstance
    let state : State :=
      { state with
        isPending := isPending svcs
        isRunning := isRunning svcs
        version := h.formatVersion innerInstance
        error := none }
    let failure : Option (Option Err) :=
      if state.isPending then getError svc innerInstance fuel else some state.error
    match failure with
    | none => none
    | some e =>
      let state : State := { state with error := e }
      let state : State := ao.foldl (matchTarget innerInstance) state
      let info := h.getTasksInfo innerInstance svc
      let innerInstance : Instance :=
        if details then
          { innerInstance with task := { innerInstance.task with tasksInfo := info.1 } }
        else innerInstance
      let state : State :=
        if details then
          match info.2 with
          | some err => { state with error := some err }
          | none => state
        else state
      let innerInstance : Instance :=
        match getRegion td.taskDefinitionArn with
        | .ok region =>
          { innerInstance with links := innerInstance.links ++ [logsLink region innerInstance] }
        | .error _ => innerInstance
      some (innerInstance.SetState state)

/-- A Go `map[string]app.Instance`: an association list with distinct keys. -/
abbrev InstanceMap := List (String × Instance)

/-- The map lookup `m[k]`. -/
def mapGet : InstanceMap → String → Option Instance
  | [], _ => none
  | (k2, v) :: rest, k => if k2 = k then some v else mapGet rest k

/-- The map assignment `m[k] = v`. -/
def mapSet : InstanceMap → String → Instance → InstanceMap
  | [], k, v => [(k, v)]
  | (k2, v2) :: rest, k, v =>
    if k2 = k then (k, v) :: rest else (k2, v2) :: mapSet rest k v

/-- The client `*applicationautoscaling.ApplicationAutoScaling`. -/
structure Autoscaling where
  describeScalableTargets : String → List String → Except Err (List ScalableTarget)

/-- The messages the goroutines put on the channel, for the launched
`(name, instance)` pairs taken in the order in which their goroutines publish;
`none` when one of them never publishes. -/
def publishAll (run : Instance → Option Instance) :
    List (String × Instance) → Option (List (String × Instance))
  | [] => some []
  | (name, inst) :: rest =>
    match run inst, publishAll run rest with
    | some i, some rs => some ((name, i) :: rs)
    | _, _ => none

/-- The receiving loop of `Populate`: each message is stored under its name. -/
def drain (msgs : List (String × Instance)) (instances : InstanceMap) : InstanceMap :=
  msgs.foldl (fun m r => mapSet m r.1 r.2) instances

/-- Source `Populate`. One goroutine is started per map entry, each on a copy of
the entry taken before any result is stored. `completion` lists the started
entries in the order in which their goroutines publish, which the scheduler
decides: it is a permutation of `instances`. The value is `none` when the
receiving loop waits forever. -/
def Populate (h : Helpers) (svc : Ecs) (ascv : Autoscaling) (fuel : Nat)
    (completion : List (String × Instance)) (instances : InstanceMap) (details : Bool) :
    Option (InstanceMap × Option Err) :=
  let resourceIds := instances.map (fun p => resourceId p.2)
  match ascv.describeScalableTargets "ecs" resourceIds with
  | .error err => some (instances, some err)
  | .ok ao =>
    match publishAll (populateUnit h svc ao details fuel) completion with
    | none => none
    | some msgs => some (drain msgs instances, none)

/-! ## Scaling -/

/-- A request `Scale` sends, or has `task.List` send on its behalf. -/
inductive Request where
  | listTargetsByRule (rule : String)
  | taskList (inst : Instance) (status : Option String)
  | stopTask (input : StopTaskInput)
  | runTask (input : RunTaskInput)
deriving DecidableEq, Repr

/-- The client `*cloudwatchevents.CloudWatchEvents`. -/
structure Events where
  listTargetsByRule : String → Except Err (List Target)

/-- Source `stopTasks`: the requests sent, and the error returned. The results
of the `StopTask` calls are discarded by the source. -/
def stopTasks (h : Helpers) (usr : User) (inst : Instance) (_taskArn : Option String)
    (svc : Ecs) : List Request × Option Err :=
  match h.taskList inst svc (some "RUNNING") with
  | .error err => ([Request.taskList inst (some "RUNNING")], some err)
  | .ok tasks =>
    let reason := "Stopped by " ++ usr.email
    (Request.taskList inst (some "RUNNING") ::
      tasks.map (fun t =>
        Request.stopTask { cluster := inst.cluster, reason := reason, task := t.taskArn }),
     none)

/-- How a call of `Scale` ends: it returns an error value (nil or not), or it
faults on a nil pointer. -/
inductive Outcome where
  | returned (err : Option Err)
  | faulted
deriving DecidableEq, Repr

/-- The `ecs.RunTaskInput` that `Scale` builds from the resolved target; `none`
when building it reads through an absent `EcsParameters`,
`NetworkConfiguration` or `AwsvpcConfiguration`. -/
def runTaskInput (usr : User) (inst : Instance) (desiredCount : Int) (target : Target) :
    Option RunTaskInput :=
  match target.ecsParameters with
  | none => none
  | some params =>
    match params.networkConfiguration with
    | none => none
    | some net =>
      match net.awsvpcConfiguration with
      | none => none
      | some vpc =>
        some
          { cluster := inst.cluster
            count := desiredCount
            launchType := params.launchType
            group := params.group
            networkConfiguration :=
              { awsvpcConfiguration :=
                  some { assignPublicIp := vpc.assignPublicIp
                         securityGroups := vpc.securityGroups
                         subnets := vpc.subnets } }
            taskDefinition := params.taskDefinitionArn
            startedBy := usr.email }

/-- Source `Scale`: the requests sent, in order, and how the call ends. The
user is the one the context carries. The argument
`target.EcsParameters.TaskDefinitionArn` of `stopTasks` is evaluated before the
call, and the fields of the `RunTaskInput` before `RunTask` is called. -/
def Scale (h : Helpers) (evtSvc : Events) (ecsSvc : Ecs) (usr : User) (inst : Instance)
    (desiredCount : Int) (restart : Bool) : List Request × Outcome :=
  let asked := Request.listTargetsByRule inst.eventRule
  match evtSvc.listTargetsByRule inst.eventRule with
  | .error err => ([asked], Outcome.returned (some err))
  | .ok targets =>
    if targets.length = 0 then ([asked], Outcome.returned (some "event target not found"))
    else
      match targets with
      | [] => ([asked], Outcome.returned (some "event target not found"))
      | target :: _ =>
        if desiredCount = 0 then
          match target.ecsParameters with
          | none => ([asked], Outcome.faulted)
          | some params =>
            let stopped := stopTasks h usr inst params.taskDefinitionArn ecsSvc
            (asked :: stopped.1, Outcome.returned stopped.2)
        else
          let stopped : List Request × Outcome :=
            if restart then
              match target.ecsParameters with
              | none => ([], Outcome.faulted)
              | some params =>
                let r := stopTasks h usr inst params.taskDefinitionArn ecsSvc
                (r.1, Outcome.returned r.2)
            else ([], Outcome.returned none)
          match stopped.2 with
          | Outcome.faulted => (asked :: stopped.1, Outcome.faulted)
          | Outcome.returned (some err) => (asked :: stopped.1, Outcome.returned (some err))
          | Outcome.returned none =>
            match runTaskInput usr inst desiredCount target with
            | none => (asked :: stopped.1, Outcome.faulted)
            | some input =>
              (asked :: (stopped.1 ++ [Request.runTask input]),
               Outcome.returned (ecsSvc.runTask input))

/-! ## Specification-side notions -/

/-- A stopped task the specification counts as a failure: stop code and stopped
reason are both set and the stop code is not the user-initiated one. -/
def isFailure (t : Task) : Bool :=
  t.stopCode.isSome && t.stoppedReason.isSome &&
    (t.stopCode != some TaskStopCodeUserInitiated)

/-- The sub-list `F` of the failures among the given tasks, in order. -/
def failures (tasks : List Task) : List Task :=
  tasks.filter isFailure

/-- The `MinCapacity` of the last scalable target of the list that carries the
resource id, zero when no target carries it. -/
def scalableMinCapacity (ao : List ScalableTarget) (id : String) : Int :=
  match (ao.filter (fun t => decide (t.resourceId = id))).getLast? with
  | some t => t.minCapacity
  | none => 0

/-- The STOPPED listing of the instance ends at its first page: a successful
answer to the request without a token carries no token, or an empty one. -/
def firstPageFinal (svc : Ecs) (inst : Instance) : Prop :=
  ∀ out, svc.listTasks
      { cluster := inst.cluster, serviceName := inst.service, desiredStatus := "STOPPED",
        nextToken := none } = .ok out →
    ∀ tok, out.nextToken = some tok → tok.length = 0

/-! ## Concrete scenarios -/

/-- A task that stopped because its container exited. -/
def crashedTask (arn : String) : Task :=
  { taskArn := some arn
    stopCode := some "EssentialContainerExited"
    stoppedReason := some ("container exited: " ++ arn) }

/-- An ECS endpoint whose STOPPED listing has two pages: the request without a
token answers task `t1` and the token `p2`, the request with a token answers
task `t2` and no further token. -/
def twoPageEcs : Ecs :=
  { listTasks := fun input =>
      match input.nextToken with
      | none => .ok { taskArns := ["t1"], nextToken := some "p2" }
      | some _ => .ok { taskArns := ["t2"], nextToken := none }
    describeTasks := fun _ arns => .ok (arns.map crashedTask)
    describeServices := fun _ _ => .ok []
    describeTaskDefinition := fun _ => .ok {}
    runTask := fun _ => none }

/-- An ECS endpoint whose STOPPED listing is the single page `t1`, `t2`, the
second task being stopped by a user. -/
def onePageEcs : Ecs :=
  { listTasks := fun _ => .ok { taskArns := ["t1", "t2"], nextToken := none }
    describeTasks := fun _ _ =>
      .ok [crashedTask "t1",
           { taskArn := some "t2", stopCode := some "UserInitiated",
             stoppedReason := some "stopped by hand" }]
    describeServices := fun _ _ => .ok []
    describeTaskDefinition := fun _ => .ok {}
    runTask := fun _ => none }

/-- Helper functions for the scenarios: two tasks are RUNNING. -/
def demoHelpers : Helpers :=
  { definitionFrom := fun td _ => td.taskDefinitionArn
    formatVersion := fun i => i.task.definition
    taskList := fun _ _ _ => .ok [{ taskArn := some "task/1" }, { taskArn := some "task/2" }]
    getTasksInfo := fun _ _ => ([], none) }

/-- The VPC settings of the scenarios. -/
def demoVpc : AwsVpcConfiguration :=
  { assignPublicIp := some "DISABLED", securityGroups := ["sg-1"],
    subnets := ["subnet-1", "subnet-2"] }

/-- The ECS parameters of a Fargate target. -/
def demoParams : EcsParameters :=
  { taskDefinitionArn := some "arn:aws:ecs:us-east-1:1:task-definition/web:7"
    launchType := some "FARGATE"
    group := some "web"
    networkConfiguration := some { awsvpcConfiguration := some demoVpc } }

/-- An event target with Fargate run parameters. -/
def demoTarget : Target := { ecsParameters := some demoParams }

/-- An event target that is not an ECS task (a function, a queue): it has no
ECS parameters. -/
def functionTarget : Target := { ecsParameters := none }

/-- An ECS event target on the EC2 launch type in bridge network mode: it has
no network configuration. -/
def bridgeTarget : Target :=
  { ecsParameters :=
      some { taskDefinitionArn := some "arn:aws:ecs:us-east-1:1:task-definition/batch:2"
             launchType := some "EC2"
             group := some "batch"
             networkConfiguration := none } }

/-- An events endpoint: the rule `nightly` has the Fargate target, the rule
`notify` a non-ECS target, the rule `batch` the bridge-mode target, and no other
rule has a target. -/
def demoEvents : Events :=
  { listTargetsByRule := fun rule =>
      if rule = "nightly" then .ok [demoTarget]
      else if rule = "notify" then .ok [functionTarget]
      else if rule = "batch" then .ok [bridgeTarget]
      else .ok [] }

/-- An instance whose event rule is bound to a non-ECS target. -/
def notifyInstance : Instance :=
  { cluster := "prod", service := "web", eventRule := "notify" }

/-- An instance whose event rule is bound to the bridge-mode target. -/
def batchInstance : Instance :=
  { cluster := "prod", service := "batch", eventRule := "batch" }

/-- An instance driven by the rule `nightly`. -/
def demoInstance : Instance :=
  { cluster := "prod", service := "web", eventRule := "nightly" }

/-- An instance whose event rule has no target. -/
def orphanInstance : Instance :=
  { cluster := "prod", service := "web", eventRule := "unbound" }

/-- A second instance, of the service `api`. -/
def apiInstance : Instance :=
  { cluster := "prod", service := "api", eventRule := "hourly" }

/-- An ECS endpoint that knows the service `api` only, stable at two tasks, and
whose STOPPED listings are a single empty page. -/
def fleetEcs : Ecs :=
  { listTasks := fun _ => .ok {}
    describeTasks := fun _ _ => .ok []
    describeServices := fun _ names =>
      if names = ["api"] then
        .ok [{ deployments := ["d1"], desiredCount := 2, runningCount := 2, pendingCount := 0,
               taskDefinition := "api:3" }]
      else .ok []
    describeTaskDefinition := fun arn =>
      .ok { taskDefinitionArn := "arn:aws:ecs:us-east-1:1:task-definition/" ++ arn }
    runTask := fun _ => none }

/-- An autoscaling endpoint with one scalable target per service. -/
def fleetAscv : Autoscaling :=
  { describeScalableTargets := fun _ _ =>
      .ok [{ resourceId := "service/prod/web", minCapacity := 3 },
           { resourceId := "service/prod/api", minCapacity := 2 }] }

/-- An autoscaling endpoint whose call fails. -/
def failingAscv : Autoscaling :=
  { describeScalableTargets := fun _ _ => .error "ThrottlingException" }

/-- The instance map of the scenarios. -/
def fleet : InstanceMap := [("web", demoInstance), ("api", apiInstance)]

/-- A service that is still starting: one task desired, none running yet. -/
def startingService : Service :=
  { deployments := ["d1"], desiredCount := 1, runningCount := 0, pendingCount := 1,
    taskDefinition := "web:7" }

/-- An ECS endpoint on which every service is still starting and every STOPPED
listing has a second page. -/
def stuckEcs : Ecs :=
  { twoPageEcs with describeServices := fun _ _ => .ok [startingService] }

/-- A task stopped by a user. -/
def userStopped (arn : String) : Task :=
  { taskArn := some arn, stopCode := some "UserInitiated",
    stoppedReason := some "stopped by hand" }

/-- An ECS endpoint whose STOPPED listing has two pages, `t1` then `t2`, both
tasks being stopped by a user. -/
def userStopsEcs : Ecs :=
  { twoPageEcs with describeTasks := fun _ arns => .ok (arns.map userStopped) }

/-- An ECS endpoint on which the service `api` is still starting, no other
service is known, and every STOPPED listing has a second page. -/
def halfStuckEcs : Ecs :=
  { twoPageEcs with
    describeServices := fun _ names =>
      if names = ["api"] then .ok [startingService] else .ok [] }

/-- An ECS endpoint on which every service is still starting and the STOPPED
listing fails. -/
def brokenListEcs : Ecs :=
  { stuckEcs with listTasks := fun _ => .error "ListTasks: AccessDenied" }

/-- Helper functions whose task-details fetch fails. -/
def brokenHelpers : Helpers :=
  { demoHelpers with getTasksInfo := fun _ _ => ([], some "DescribeTasks: Throttled") }

/-- The acting user of the scenarios. -/
def demoUser : User := { email := "ops@example.com" }

/-! ## Properties -/

/-! ### Health classification -/

/-- C10: `isPending` is true exactly when (deployment count > 1 and desired
count > 0) or pending count > 0 or desired count differs from running count;
`isRunning` is true exactly when running count > 0 and running count ≥ desired
count. Hence `isRunning` is false whenever running < desired, and `isPending` is
true whenever desired differs from running. -/
theorem isPending_isRunning_spec (svc : Service) :
    (isPending svc = true ↔
      (svc.deployments.length > 1 ∧ svc.desiredCount > 0) ∨ svc.pendingCount > 0 ∨
        svc.desiredCount ≠ svc.runningCount) ∧
    (isRunning svc = true ↔ svc.runningCount > 0 ∧ svc.runningCount ≥ svc.desiredCount) ∧
    (svc.runningCount < svc.desiredCount → isRunning svc = false) ∧
    (svc.desiredCount ≠ svc.runningCount → isPending svc = true) := by
  refine ⟨?_, ?_, ?_, ?_⟩
  · simp [isPending, or_assoc]
  · simp [isRunning]
  · intro hlt
    simp only [isRunning, Bool.and_eq_false_iff, decide_eq_false_iff_not]
    right
    omega
  · intro hne
    simp [isPending, hne]

/-! ### Failure-reason resolution -/

/-- The loop of `getTaskError`, started from any `(count, reason)`, adds the
number of failures and keeps the stopped reason of the last one. -/
theorem foldl_getTaskErrorStep (tasks : List Task) (acc : Nat × Option Err) :
    tasks.foldl getTaskErrorStep acc =
      (acc.1 + (failures tasks).length,
       match (failures tasks).getLast? with
       | some t => t.stoppedReason
       | none => acc.2) := by
  induction tasks using List.reverseRecOn with
  | nil => simp [failures]
  | append_singleton ts t ih =>
    rw [List.foldl_append, ih]
    simp only [List.foldl_cons, List.foldl_nil, failures, List.filter_append]
    rcases hc : t.stopCode with _ | code <;> rcases hr : t.stoppedReason with _ | why
    · simp [getTaskErrorStep, isFailure, hc, hr, failures]
    · simp [getTaskErrorStep, isFailure, hc, hr, failures]
    · simp [getTaskErrorStep, isFailure, hc, hr, failures]
    · by_cases hu : code = TaskStopCodeUserInitiated
      · simp [getTaskErrorStep, isFailure, hc, hr, hu, failures]
      · simp [getTaskErrorStep, isFailure, hc, hr, hu, failures, Nat.add_assoc]

/-- Every failure has a stopped reason. -/
theorem stoppedReason_of_mem_failures {tasks : List Task} {t : Task}
    (ht : t ∈ failures tasks) : ∃ why, t.stoppedReason = some why := by
  have hf : isFailure t = true := (List.mem_filter.mp ht).2
  rcases hr : t.stoppedReason with _ | why
  · simp [isFailure, hr] at hf
  · exact ⟨why, rfl⟩

/-- The count and reason `getTaskError` returns, in terms of the failures. -/
theorem getTaskError_eq (tasks : List Task) :
    getTaskError tasks =
      ((failures tasks).length, (failures tasks).getLast?.bind Task.stoppedReason) := by
  rw [getTaskError, foldl_getTaskErrorStep]
  rcases h : (failures tasks).getLast? with _ | t <;> simp

/-- Once the stopped-task listing has returned `tasks`, with `F` the failures
among them: `getTaskError` returns the count `length F` and a reason that is
non-nil exactly when `F` is non-empty, namely the stopped reason of the last
element of `F`; `getError` returns nil if `F` is empty (in particular if every
task is a user-initiated stop), and otherwise the error
`<length F> failed task(s) (<last reason of F>)`. -/
theorem getError_of_listing (svc : Ecs) (inst : Instance) (fuel : Nat)
    (tasks : List Task)
    (hlist : getTaskDetails svc inst fuel [] "" = some (.ok tasks)) :
    (getTaskError tasks).1 = (failures tasks).length ∧
    ((getTaskError tasks).2 ≠ none ↔ failures tasks ≠ []) ∧
    (getTaskError tasks).2 = (failures tasks).getLast?.bind Task.stoppedReason ∧
    (failures tasks = [] → getError svc inst fuel = some none) ∧
    ((∀ t ∈ tasks, t.stopCode = some TaskStopCodeUserInitiated) →
      getError svc inst fuel = some none) ∧
    (∀ last, (failures tasks).getLast? = some last →
      ∃ why, last.stoppedReason = some why ∧
        getError svc inst fuel =
          some (some (toString (failures tasks).length ++ " failed task(s) (" ++ why ++ ")"))) := by
  have hempty : failures tasks = [] → getError svc inst fuel = some none := by
    intro hF
    simp [getError, hlist, getTaskError_eq, hF]
  refine ⟨?_, ?_, ?_, hempty, ?_, ?_⟩
  · rw [getTaskError_eq]
  · rw [getTaskError_eq]
    constructor
    · intro hsome hF
      simp [hF] at hsome
    · intro hF
      obtain ⟨t, ht⟩ : ∃ t, (failures tasks).getLast? = some t := by
        rcases hl : (failures tasks).getLast? with _ | t
        · exact absurd (List.getLast?_eq_none_iff.mp hl) hF
        · exact ⟨t, rfl⟩
      obtain ⟨why, hwhy⟩ := stoppedReason_of_mem_failures (List.mem_of_getLast?_eq_some ht)
      simp [ht, hwhy]
  · rw [getTaskError_eq]
  · intro hall
    apply hempty
    apply List.filter_eq_nil_iff.mpr
    intro t ht
    simp [isFailure, hall t ht]
  · intro last hlast
    obtain ⟨why, hwhy⟩ := stoppedReason_of_mem_failures (List.mem_of_getLast?_eq_some hlast)
    refine ⟨why, hwhy, ?_⟩
    simp [getError, hlist, getTaskError_eq, hlast, hwhy, failedTasksMessage]

/-- When the first page of the STOPPED listing names a further page and the task
descriptions succeed, `getTaskDetails` started on the empty token never returns:
every call is made with the empty token again. -/
theorem getTaskDetails_never_returns (svc : Ecs) (inst : Instance) (out : ListTasksOutput)
    (tok : String)
    (hlist : svc.listTasks
      { cluster := inst.cluster, serviceName := inst.service, desiredStatus := "STOPPED",
        nextToken := none } = .ok out)
    (htok : out.nextToken = some tok) (hne : ¬ tok.length = 0)
    (hdesc : ∀ arns, ∃ ts, svc.describeTasks inst.cluster arns = .ok ts) :
    ∀ fuel acc, getTaskDetails svc inst fuel acc "" = none := by
  have hempty : ¬ ("".length > 0) := by decide
  intro fuel
  induction fuel with
  | zero => intro acc; rfl
  | succ n ih =>
    intro acc
    obtain ⟨ts, hts⟩ := hdesc out.taskArns
    by_cases harns : out.taskArns.length > 0
    · simp only [getTaskDetails, hempty, if_false, hlist, harns, if_true, hts, htok, hne]
      exact ih _
    · simp only [getTaskDetails, hempty, if_false, hlist, harns, htok, hne]
      exact ih _

/-- C1 (the code at a two-page listing): called with an empty accumulator and
an empty token, `getTaskDetails` never returns. Each call asks for the page of
the token it received, the empty one, appends the first page again and recurses;
the second page is never requested, and every recursion budget is exhausted. -/
theorem getTaskDetails_two_pages_never_returns :
    (∀ fuel acc, getTaskDetails twoPageEcs demoInstance (fuel + 1) acc "" =
        getTaskDetails twoPageEcs demoInstance fuel (acc ++ [crashedTask "t1"]) "") ∧
    (∀ fuel, getTaskDetails twoPageEcs demoInstance fuel [] "" = none) := by
  have hstep : ∀ fuel acc, getTaskDetails twoPageEcs demoInstance (fuel + 1) acc "" =
      getTaskDetails twoPageEcs demoInstance fuel (acc ++ [crashedTask "t1"]) "" := by
    intro fuel acc
    have htok : ¬ "p2".length = 0 := by decide
    simp [getTaskDetails, twoPageEcs, htok]
  refine ⟨hstep, ?_⟩
  have hall : ∀ fuel acc, getTaskDetails twoPageEcs demoInstance fuel acc "" = none := by
    intro fuel
    induction fuel with
    | zero => intro acc; rfl
    | succ n ih => intro acc; rw [hstep]; exact ih _
  intro fuel
  exact hall fuel []

/-- A STOPPED listing whose first page is also its last is read in one call:
`getTaskDetails` returns the described tasks of that page. -/
theorem getTaskDetails_single_page (svc : Ecs) (inst : Instance) (out : ListTasksOutput)
    (tasks : List Task) (fuel : Nat)
    (hlist : svc.listTasks
      { cluster := inst.cluster, serviceName := inst.service, desiredStatus := "STOPPED",
        nextToken := none } = .ok out)
    (hfinal : ∀ tok, out.nextToken = some tok → tok.length = 0)
    (harns : out.taskArns.length > 0)
    (hdesc : svc.describeTasks inst.cluster out.taskArns = .ok tasks) :
    getTaskDetails svc inst (fuel + 1) [] "" = some (.ok tasks) := by
  have hempty : ¬ ("".length > 0) := by decide
  simp only [getTaskDetails, hempty, if_false, hlist, harns, if_true, hdesc, List.nil_append]
  rcases htok : out.nextToken with _ | tok
  · rfl
  · simp only [hfinal tok htok, if_true]

/-- C5 (the code at a two-page listing of user-initiated stops): `getTaskError`
does return, for every task list, the number of failures `F` and the stopped
reason of the last one. But `getError` takes its task list from
`getTaskDetails`: on a STOPPED listing of two pages whose tasks were all stopped
by a user, so that `F` is empty, `getError` never returns, where nil is
expected. -/
theorem getError_two_pages_never_returns :
    (∀ tasks, getTaskError tasks =
      ((failures tasks).length, (failures tasks).getLast?.bind Task.stoppedReason)) ∧
    failures [userStopped "t1", userStopped "t2"] = [] ∧
    (∀ fuel, getError userStopsEcs demoInstance fuel = none) := by
  refine ⟨getTaskError_eq, by decide, ?_⟩
  intro fuel
  have hdet := getTaskDetails_never_returns userStopsEcs demoInstance
    { taskArns := ["t1"], nextToken := some "p2" } "p2" rfl rfl (by decide)
    (fun arns => ⟨_, rfl⟩) fuel []
  simp only [getError, hdet]

/-! ### Scaling -/

/-- C4: when the target listing of the event rule succeeds with zero targets,
`Scale` returns the error `event target not found`, and the target listing is
the only request it sent: no task listing, no `StopTask`, no `RunTask`. -/
theorem Scale_without_target (h : Helpers) (evtSvc : Events) (ecsSvc : Ecs) (usr : User)
    (inst : Instance) (desiredCount : Int) (restart : Bool)
    (hnone : evtSvc.listTargetsByRule inst.eventRule = .ok []) :
    Scale h evtSvc ecsSvc usr inst desiredCount restart =
      ([Request.listTargetsByRule inst.eventRule],
       Outcome.returned (some "event target not found")) := by
  simp [Scale, hnone]

/-- C4, at a concrete input: scaling an instance whose rule is unbound to 3
with restart. -/
theorem Scale_without_target_witness :
    demoEvents.listTargetsByRule orphanInstance.eventRule = .ok [] ∧
      Scale demoHelpers demoEvents onePageEcs demoUser orphanInstance 3 true =
        ([Request.listTargetsByRule "unbound"],
         Outcome.returned (some "event target not found")) :=
  ⟨by simp [demoEvents, orphanInstance],
   Scale_without_target demoHelpers demoEvents onePageEcs demoUser orphanInstance 3 true
     (by simp [demoEvents, orphanInstance])⟩

/-- With `desiredCount = 0` no `RunTask` request is sent, whatever the first
target is and however the call ends. -/
theorem Scale_zero_never_runs (h : Helpers) (evtSvc : Events) (ecsSvc : Ecs) (usr : User)
    (inst : Instance) (restart : Bool) (input : RunTaskInput) :
    Request.runTask input ∉ (Scale h evtSvc ecsSvc usr inst 0 restart).1 := by
  rcases hl : evtSvc.listTargetsByRule inst.eventRule with err | targets
  · simp [Scale, hl]
  · rcases targets with _ | ⟨target, rest⟩
    · simp [Scale, hl]
    · rcases hp : target.ecsParameters with _ | params
      · simp [Scale, hl, hp]
      · rcases ht : h.taskList inst ecsSvc (some "RUNNING") with err | tasks <;>
          simp [Scale, hl, hp, stopTasks, ht]

/-- C2, as the code has it: when the first target of the event rule carries ECS
parameters, `Scale` with `desiredCount = 0` sends no `RunTask` request, whatever
`restart` is. It lists the RUNNING tasks; when that listing succeeds it sends one
`StopTask` request per listed task, in order, and returns nil; when it fails it
returns that error. -/
theorem Scale_zero_only_stops (h : Helpers) (evtSvc : Events) (ecsSvc : Ecs) (usr : User)
    (inst : Instance) (restart : Bool) (target : Target) (rest : List Target)
    (params : EcsParameters)
    (htargets : evtSvc.listTargetsByRule inst.eventRule = .ok (target :: rest))
    (hparams : target.ecsParameters = some params) :
    (∀ input, Request.runTask input ∉ (Scale h evtSvc ecsSvc usr inst 0 restart).1) ∧
    (∀ tasks, h.taskList inst ecsSvc (some "RUNNING") = .ok tasks →
      Scale h evtSvc ecsSvc usr inst 0 restart =
        (Request.listTargetsByRule inst.eventRule ::
          Request.taskList inst (some "RUNNING") ::
          tasks.map (fun t => Request.stopTask
            { cluster := inst.cluster, reason := "Stopped by " ++ usr.email,
              task := t.taskArn }),
         Outcome.returned none)) ∧
    (∀ err, h.taskList inst ecsSvc (some "RUNNING") = .error err →
      Scale h evtSvc ecsSvc usr inst 0 restart =
        ([Request.listTargetsByRule inst.eventRule, Request.taskList inst (some "RUNNING")],
         Outcome.returned (some err))) := by
  refine ⟨Scale_zero_never_runs h evtSvc ecsSvc usr inst restart, ?_, ?_⟩
  · intro tasks hl
    simp [Scale, htargets, hparams, stopTasks, hl]
  · intro err hl
    simp [Scale, htargets, hparams, stopTasks, hl]

/-- C2, at a concrete input: scaling to 0 with restart stops the two RUNNING
tasks and runs nothing. -/
theorem Scale_zero_only_stops_witness :
    demoEvents.listTargetsByRule demoInstance.eventRule = .ok [demoTarget] ∧
      demoTarget.ecsParameters = some demoParams ∧
      Scale demoHelpers demoEvents onePageEcs demoUser demoInstance 0 true =
        ([Request.listTargetsByRule "nightly",
          Request.taskList demoInstance (some "RUNNING"),
          Request.stopTask { cluster := "prod", reason := "Stopped by ops@example.com",
                             task := some "task/1" },
          Request.stopTask { cluster := "prod", reason := "Stopped by ops@example.com",
                             task := some "task/2" }],
         Outcome.returned none) :=
  ⟨by simp [demoEvents, demoInstance], rfl,
   (Scale_zero_only_stops demoHelpers demoEvents onePageEcs demoUser demoInstance true
      demoTarget [] demoParams (by simp [demoEvents, demoInstance]) rfl).2.1 _ rfl⟩

/-- C2 fails as stated: the event rule has a bound target, but the target is
not an ECS task and carries no ECS parameters. `Scale` with `desiredCount = 0`
then faults right after the target listing: it lists no tasks, sends no
`StopTask` and does not return. -/
theorem Scale_zero_faults_without_ecs_parameters :
    demoEvents.listTargetsByRule notifyInstance.eventRule = .ok [functionTarget] ∧
    Scale demoHelpers demoEvents onePageEcs demoUser notifyInstance 0 false =
      ([Request.listTargetsByRule "notify"], Outcome.faulted) ∧
    Scale demoHelpers demoEvents onePageEcs demoUser notifyInstance 0 true =
      ([Request.listTargetsByRule "notify"], Outcome.faulted) := by
  refine ⟨by simp [demoEvents, notifyInstance], by rfl, by rfl⟩

/-- C3, as the code has it: for `desiredCount > 0` and a first target that
carries ECS parameters with a network configuration holding VPC settings. With
`restart = false`, `Scale` sends, after the target listing, exactly one request:
a `RunTask` with count `desiredCount`; no task listing, no `StopTask`. With
`restart = true` and a successful RUNNING listing, it sends one `StopTask` per
listed task, in order, and then a single `RunTask` with count `desiredCount`.
In both cases launch type, group, network configuration and task-definition ARN
of the run request are those of the first target, and the value returned is the
outcome of that `RunTask`. -/
theorem Scale_positive_runs (h : Helpers) (evtSvc : Events) (ecsSvc : Ecs) (usr : User)
    (inst : Instance) (desiredCount : Int) (target : Target) (rest : List Target)
    (params : EcsParameters) (net : NetworkConfiguration) (vpc : AwsVpcConfiguration)
    (hpos : 0 < desiredCount)
    (htargets : evtSvc.listTargetsByRule inst.eventRule = .ok (target :: rest))
    (hparams : target.ecsParameters = some params)
    (hnet : params.networkConfiguration = some net)
    (hvpc : net.awsvpcConfiguration = some vpc) :
    ∃ input : RunTaskInput,
      Scale h evtSvc ecsSvc usr inst desiredCount false =
          ([Request.listTargetsByRule inst.eventRule, Request.runTask input],
           Outcome.returned (ecsSvc.runTask input)) ∧
      (∀ tasks, h.taskList inst ecsSvc (some "RUNNING") = .ok tasks →
        Scale h evtSvc ecsSvc usr inst desiredCount true =
          (Request.listTargetsByRule inst.eventRule ::
            Request.taskList inst (some "RUNNING") ::
            (tasks.map (fun t => Request.stopTask
                { cluster := inst.cluster, reason := "Stopped by " ++ usr.email,
                  task := t.taskArn })
              ++ [Request.runTask input]),
           Outcome.returned (ecsSvc.runTask input))) ∧
      input.count = desiredCount ∧
      input.cluster = inst.cluster ∧
      input.launchType = params.launchType ∧
      input.group = params.group ∧
      input.networkConfiguration = net ∧
      input.taskDefinition = params.taskDefinitionArn ∧
      input.startedBy = usr.email := by
  have hne : desiredCount ≠ 0 := by omega
  have hinput : runTaskInput usr inst desiredCount target =
      some { cluster := inst.cluster, count := desiredCount, launchType := params.launchType,
             group := params.group, networkConfiguration := net,
             taskDefinition := params.taskDefinitionArn, startedBy := usr.email } := by
    obtain ⟨v⟩ := net
    simp only at hvpc
    subst hvpc
    simp only [runTaskInput, hparams, hnet]
  refine ⟨{ cluster := inst.cluster, count := desiredCount, launchType := params.launchType,
            group := params.group, networkConfiguration := net,
            taskDefinition := params.taskDefinitionArn, startedBy := usr.email },
    ?_, ?_, rfl, rfl, rfl, rfl, rfl, rfl, rfl⟩
  · simp [Scale, htargets, hne, hinput]
  · intro tasks hl
    simp [Scale, htargets, hne, hparams, stopTasks, hl, hinput]

/-- C3, at a concrete input: scaling to 2 with restart stops the two RUNNING
tasks and then runs two tasks with the parameters of the target. -/
theorem Scale_positive_runs_witness :
    (0 : Int) < 2 ∧
      demoEvents.listTargetsByRule demoInstance.eventRule = .ok [demoTarget] ∧
      Scale demoHelpers demoEvents onePageEcs demoUser demoInstance 2 true =
        ([Request.listTargetsByRule "nightly",
          Request.taskList demoInstance (some "RUNNING"),
          Request.stopTask { cluster := "prod", reason := "Stopped by ops@example.com",
                             task := some "task/1" },
          Request.stopTask { cluster := "prod", reason := "Stopped by ops@example.com",
                             task := some "task/2" },
          Request.runTask
            { cluster := "prod", count := 2, launchType := some "FARGATE", group := some "web",
              networkConfiguration := { awsvpcConfiguration := some demoVpc },
              taskDefinition := some "arn:aws:ecs:us-east-1:1:task-definition/web:7",
              startedBy := "ops@example.com" }],
         Outcome.returned none) := by
  obtain ⟨input, -, hrestart, hcount, hcluster, hlaunch, hgroup, hnet, htd, hby⟩ :=
    Scale_positive_runs demoHelpers demoEvents onePageEcs demoUser demoInstance 2
      demoTarget [] demoParams { awsvpcConfiguration := some demoVpc } demoVpc
      (by decide) (by simp [demoEvents, demoInstance]) rfl rfl rfl
  refine ⟨by decide, by simp [demoEvents, demoInstance], ?_⟩
  rw [hrestart _ rfl]
  obtain ⟨c, n, l, g, nc, td, sb⟩ := input
  simp only at hcount hcluster hlaunch hgroup hnet htd hby
  subst hcount hcluster hlaunch hgroup hnet htd hby
  rfl

/-- C3 fails as stated: the event rule has a bound ECS target on the EC2 launch
type in bridge network mode, which carries no network configuration. For
`desiredCount = 2`, `Scale` faults while building the run request and sends no
`RunTask`: with `restart = false` right after the target listing, with
`restart = true` after the RUNNING tasks were stopped. -/
theorem Scale_positive_faults_without_network_configuration :
    demoEvents.listTargetsByRule batchInstance.eventRule = .ok [bridgeTarget] ∧
    Scale demoHelpers demoEvents onePageEcs demoUser batchInstance 2 false =
      ([Request.listTargetsByRule "batch"], Outcome.faulted) ∧
    Scale demoHelpers demoEvents onePageEcs demoUser batchInstance 2 true =
      ([Request.listTargetsByRule "batch",
        Request.taskList batchInstance (some "RUNNING"),
        Request.stopTask { cluster := "prod", reason := "Stopped by ops@example.com",
                           task := some "task/1" },
        Request.stopTask { cluster := "prod", reason := "Stopped by ops@example.com",
                           task := some "task/2" }],
       Outcome.faulted) := by
  refine ⟨by simp [demoEvents, batchInstance], by rfl, by rfl⟩

/-! ### Region extraction -/

/-- A lowercase letter is not the dash. -/
theorem isDash_of_isLower {c : Char} (h : isLower c = true) : isDash c = false := by
  by_contra hd
  have hc : c = '-' := by simpa [isDash] using hd
  subst hc
  exact absurd h (by decide)

/-- What the tail `-[0-9]` of the pattern matches at the start of the input. -/
theorem matchHere_tail (s m : List Char) :
    matchHere [Atom.one isDash, Atom.one isDigit] s = some m ↔
      ∃ d post, isDigit d = true ∧ s = '-' :: d :: post ∧ m = ['-', d] := by
  rcases s with _ | ⟨c, _ | ⟨d, post⟩⟩
  · simp [matchHere]
  · by_cases hc : isDash c = true <;> simp [matchHere, hc]
  · by_cases hc : isDash c = true
    · have hc2 : c = '-' := by simpa [isDash] using hc
      subst hc2
      by_cases hd : isDigit d = true
      · simp [matchHere, hc, hd]
        constructor
        · intro hm
          exact ⟨d, hd, rfl, hm.symm⟩
        · rintro ⟨d2, -, hdd, hm⟩
          rw [hm, hdd]
      · simp [matchHere, hc, hd]
        intro d2 hd2 hdd
        rw [hdd] at hd
        exact absurd hd2 hd
    · have hc2 : ¬ c = '-' := by simpa [isDash] using hc
      simp [matchHere, hc, hc2]

/-- What `[a-z]*-[0-9]` matches at the start of the input: the lowercase run up
to the dash, the dash and the digit. -/
theorem starLoop_lower_tail (s : List Char) : ∀ m : List Char,
    starLoop isLower (matchHere [Atom.one isDash, Atom.one isDigit]) s = some m ↔
      ∃ mid d post, (∀ c ∈ mid, isLower c = true) ∧ isDigit d = true ∧
        s = mid ++ '-' :: d :: post ∧ m = mid ++ ['-', d] := by
  induction s with
  | nil =>
    intro m
    simp [starLoop, matchHere]
  | cons c cs ih =>
    intro m
    by_cases hl : isLower c = true
    · have hk : matchHere [Atom.one isDash, Atom.one isDigit] (c :: cs) = none := by
        simp [matchHere, isDash_of_isLower hl]
      have hdash : ¬ c = '-' := by
        intro hc
        subst hc
        exact absurd hl (by decide)
      rcases hrec : starLoop isLower (matchHere [Atom.one isDash, Atom.one isDigit]) cs
        with _ | m2
      · simp only [starLoop, hl, if_true, hrec, hk]
        constructor
        · intro hcontra
          exact absurd hcontra (by simp)
        · rintro ⟨mid, d, post, hmid, hd, hs, -⟩
          rcases mid with _ | ⟨c2, mid2⟩
          · simp at hs
            exact absurd hs.1 hdash
          · simp at hs
            have hsome := (ih (mid2 ++ ['-', d])).mpr
              ⟨mid2, d, post, fun x hx => hmid x (List.mem_cons_of_mem _ hx), hd, hs.2, rfl⟩
            rw [hrec] at hsome
            exact absurd hsome (by simp)
      · simp only [starLoop, hl, if_true, hrec]
        obtain ⟨mid, d, post, hmid, hd, hs, hm2⟩ := (ih m2).mp hrec
        constructor
        · intro hm
          have hm3 : m = c :: m2 := (Option.some.inj hm).symm
          refine ⟨c :: mid, d, post, ?_, hd, ?_, ?_⟩
          · intro x hx
            rcases List.mem_cons.mp hx with rfl | hx2
            · exact hl
            · exact hmid x hx2
          · simp [hs]
          · simp [hm3, hm2]
        · rintro ⟨mid3, d3, post3, hmid3, hd3, hs3, hm3⟩
          rcases mid3 with _ | ⟨c3, mid4⟩
          · simp at hs3
            exact absurd hs3.1 hdash
          · simp at hs3
            have hsome := (ih (mid4 ++ ['-', d3])).mpr
              ⟨mid4, d3, post3, fun x hx => hmid3 x (List.mem_cons_of_mem _ hx), hd3,
                hs3.2, rfl⟩
            rw [hrec] at hsome
            have hm4 : m2 = mid4 ++ ['-', d3] := Option.some.inj hsome
            rw [hm3, hm4, hs3.1]
            rfl
    · simp only [starLoop, hl, Bool.false_eq_true, if_false]
      rw [matchHere_tail]
      constructor
      · rintro ⟨d, post, hd, hs, hm⟩
        exact ⟨[], d, post, by simp, hd, by simpa using hs, by simpa using hm⟩
      · rintro ⟨mid, d, post, hmid, hd, hs, hm⟩
        rcases mid with _ | ⟨c2, mid2⟩
        · exact ⟨d, post, hd, by simpa using hs, by simpa using hm⟩
        · simp at hs
          have := hmid c2 (List.mem_cons_self _ _)
          rw [← hs.1] at this
          exact absurd this hl

/-- A class matched once consumes one character of the class. -/
theorem matchHere_one (cls : Char → Bool) (rest : List Atom) (s m : List Char) :
    matchHere (Atom.one cls :: rest) s = some m ↔
      ∃ c cs m2, s = c :: cs ∧ cls c = true ∧ matchHere rest cs = some m2 ∧ m = c :: m2 := by
  rcases s with _ | ⟨c, cs⟩
  · simp [matchHere]
  · by_cases hc : cls c = true
    · simp only [matchHere, hc, if_true]
      rcases hrest : matchHere rest cs with _ | m3
      · simp [hrest]
      · simp only [Option.map_some', Option.some.injEq]
        constructor
        · intro hm
          exact ⟨c, cs, m3, rfl, hc, hrest, hm.symm⟩
        · rintro ⟨c2, cs2, m2, hs, -, hm2, rfl⟩
          simp only [List.cons.injEq] at hs
          obtain ⟨rfl, rfl⟩ := hs
          rw [hrest] at hm2
          rw [Option.some.inj hm2]
    · simp only [matchHere, hc, Bool.false_eq_true, if_false]
      constructor
      · intro hcontra
        exact absurd hcontra (by simp)
      · rintro ⟨c2, cs2, m2, hs, hc2, -, -⟩
        simp only [List.cons.injEq] at hs
        rw [← hs.1] at hc2
        exact absurd hc2 hc

/-- What the pattern of `getRegion` matches at the start of the input: a prefix
made of two lowercase letters, a dash, a possibly empty run of lowercase
letters, a dash and a digit. -/
theorem matchHere_regionPattern (s m : List Char) :
    matchHere regionPattern s = some m ↔ ∃ post, s = m ++ post ∧ RegionShaped 0 m := by
  simp only [regionPattern, matchHere_one]
  constructor
  · rintro ⟨a, s1, m1, rfl, ha, ⟨b, s2, m2, rfl, hb, ⟨c, s3, m3, rfl, hc, hstar, rfl⟩, rfl⟩, rfl⟩
    have hc2 : c = '-' := by simpa [isDash] using hc
    subst hc2
    have hstar2 : starLoop isLower (matchHere [Atom.one isDash, Atom.one isDigit]) s3 =
        some m3 := hstar
    obtain ⟨mid, d, post, hmid, hd, rfl, rfl⟩ := (starLoop_lower_tail s3 m3).mp hstar2
    refine ⟨post, by simp, a, b, mid, d, ha, hb, hmid, Nat.zero_le _, hd, rfl⟩
  · rintro ⟨post, rfl, a, b, mid, d, ha, hb, hmid, -, hd, rfl⟩
    refine ⟨a, b :: '-' :: (mid ++ ['-', d]) ++ post, b :: '-' :: (mid ++ ['-', d]), by simp,
      ha, ⟨b, '-' :: (mid ++ ['-', d]) ++ post, '-' :: (mid ++ ['-', d]), by simp, hb,
        ⟨'-', mid ++ ['-', d] ++ post, mid ++ ['-', d], by simp, by decide, ?_, rfl⟩, rfl⟩, rfl⟩
    have hgoal : starLoop isLower (matchHere [Atom.one isDash, Atom.one isDigit])
        (mid ++ ['-', d] ++ post) = some (mid ++ ['-', d]) :=
      (starLoop_lower_tail _ _).mpr ⟨mid, d, post, hmid, hd, by simp, rfl⟩
    exact hgoal

/-- A match found by the leftmost scan starts at some position, and the pattern
matches at no earlier position. -/
theorem findSubmatch_some (pat : List Atom) : ∀ (s m : List Char),
    findSubmatch pat s = some m →
      ∃ pre rest, s = pre ++ rest ∧ matchHere pat rest = some m ∧
        ∀ pre2 rest2, s = pre2 ++ rest2 → pre2.length < pre.length →
          matchHere pat rest2 = none := by
  intro s
  induction s with
  | nil =>
    intro m hm
    refine ⟨[], [], rfl, hm, ?_⟩
    intro pre2 rest2 _ hlt
    exact absurd hlt (Nat.not_lt_zero _)
  | cons c cs ih =>
    intro m hm
    rcases hhere : matchHere pat (c :: cs) with _ | m2
    · simp only [findSubmatch, hhere] at hm
      obtain ⟨pre, rest, hs, hrest, hmin⟩ := ih m hm
      refine ⟨c :: pre, rest, by simp [hs], hrest, ?_⟩
      intro pre2 rest2 hs2 hlt
      rcases pre2 with _ | ⟨c2, pre3⟩
      · simp only [List.nil_append] at hs2
        rw [← hs2]
        exact hhere
      · simp only [List.cons_append, List.cons.injEq] at hs2
        exact hmin pre3 rest2 hs2.2 (by simpa using hlt)
    · simp only [findSubmatch, hhere] at hm
      refine ⟨[], c :: cs, rfl, ?_, ?_⟩
      · rw [hhere, hm]
      · intro pre2 rest2 _ hlt
        exact absurd hlt (Nat.not_lt_zero _)

/-- When the leftmost scan finds nothing, the pattern matches at no position. -/
theorem findSubmatch_none (pat : List Atom) : ∀ (s : List Char),
    findSubmatch pat s = none →
      ∀ pre rest, s = pre ++ rest → matchHere pat rest = none := by
  intro s
  induction s with
  | nil =>
    intro hnone pre rest hs
    have hrest : rest = [] := (List.append_eq_nil.mp hs.symm).2
    rw [hrest]
    exact hnone
  | cons c cs ih =>
    intro hnone pre rest hs
    rcases hhere : matchHere pat (c :: cs) with _ | m2
    · simp only [findSubmatch, hhere] at hnone
      rcases pre with _ | ⟨c2, pre3⟩
      · simp only [List.nil_append] at hs
        rw [← hs]
        exact hhere
      · simp only [List.cons_append, List.cons.injEq] at hs
        exact ih hnone pre3 rest hs.2
    · simp [findSubmatch, hhere] at hnone

/-- A text of the region shape has at least five characters. -/
theorem RegionShaped.length_pos {least : Nat} {m : List Char} (hm : RegionShaped least m) :
    least + 5 ≤ m.length := by
  obtain ⟨a, b, mid, d, -, -, -, hmid, -, rfl⟩ := hm
  simp only [List.length_cons, List.length_append, List.length_nil]
  omega

/-- The leftmost scan for the pattern of `getRegion` finds exactly the leftmost
substring of the region shape with a possibly empty middle. -/
theorem findSubmatch_regionPattern (s m : List Char) :
    findSubmatch regionPattern s = some m ↔ LeftmostSubstring (RegionShaped 0) s m := by
  constructor
  · intro hfind
    obtain ⟨pre, rest, hs, hrest, hmin⟩ := findSubmatch_some regionPattern s m hfind
    obtain ⟨post, hpost, hshape⟩ := (matchHere_regionPattern rest m).mp hrest
    refine ⟨pre, post, by rw [hs, hpost, List.append_assoc], hshape, ?_⟩
    intro pre2 m2 post2 hs2 hshape2
    by_contra hlt
    have hnone := hmin pre2 (m2 ++ post2) (by rw [hs2, List.append_assoc]) (by omega)
    have hsome := (matchHere_regionPattern (m2 ++ post2) m2).mpr ⟨post2, rfl, hshape2⟩
    rw [hnone] at hsome
    exact absurd hsome (by simp)
  · rintro ⟨pre, post, hs, hshape, hleft⟩
    have hhere : matchHere regionPattern (m ++ post) = some m :=
      (matchHere_regionPattern (m ++ post) m).mpr ⟨post, rfl, hshape⟩
    rcases hfind : findSubmatch regionPattern s with _ | m2
    · have hnone := findSubmatch_none regionPattern s hfind pre (m ++ post)
        (by rw [hs, List.append_assoc])
      rw [hnone] at hhere
      exact absurd hhere (by simp)
    · obtain ⟨pre2, rest2, hs2, hrest2, hmin2⟩ := findSubmatch_some regionPattern s m2 hfind
      obtain ⟨post2, hpost2, hshape2⟩ := (matchHere_regionPattern rest2 m2).mp hrest2
      have hle : pre.length ≤ pre2.length :=
        hleft pre2 m2 post2 (by rw [hs2, hpost2, List.append_assoc]) hshape2
      have hge : pre2.length ≤ pre.length := by
        by_contra hlt
        have hnone := hmin2 pre (m ++ post) (by rw [hs, List.append_assoc]) (by omega)
        rw [hnone] at hhere
        exact absurd hhere (by simp)
      have hsame : pre ++ (m ++ post) = pre2 ++ rest2 := by
        rw [← hs2, hs, List.append_assoc]
      have hrest : m ++ post = rest2 :=
        (List.append_inj hsame (Nat.le_antisymm hle hge)).2
      rw [← hrest, hhere] at hrest2
      exact hrest2.symm

/-- The value of `getRegion` in terms of the leftmost scan. -/
theorem getRegion_eq_ok_iff (arn r : String) :
    getRegion arn = .ok r ↔ findSubmatch regionPattern arn.toList = some r.toList := by
  unfold getRegion
  rcases hfind : findSubmatch regionPattern arn.toList with _ | m
  · constructor <;> intro hcontra <;> exact absurd hcontra (by simp)
  · obtain ⟨-, -, -, hshape, -⟩ := (findSubmatch_regionPattern arn.toList m).mp hfind
    have hlen : m.length > 0 := by
      have := RegionShaped.length_pos hshape
      omega
    simp only [hlen, if_true, Except.ok.injEq, Option.some.injEq]
    constructor
    · intro hr
      rw [← hr]
      rfl
    · intro hm
      rw [hm]
      rfl

/-- When the leftmost scan finds nothing, `getRegion` reports the failure. -/
theorem getRegion_of_findSubmatch_none (arn : String)
    (hfind : findSubmatch regionPattern arn.toList = none) :
    getRegion arn = .error "failed to get region" := by
  unfold getRegion
  rw [hfind]

/-- C6, as the code has it: `getRegion` succeeds exactly when the ARN contains a
substring made of two lowercase letters, a dash, zero or more lowercase letters,
a dash and one digit (pattern `[a-z]{2}-[a-z]*-[0-9]`), and then returns the
leftmost such substring; for every ARN without such a substring it returns the
error `failed to get region`. An ARN containing `us-east-1` yields `us-east-1`. -/
theorem getRegion_spec (arn : String) :
    (∀ r, getRegion arn = .ok r ↔ LeftmostSubstring (RegionShaped 0) arn.toList r.toList) ∧
    ((∃ r, getRegion arn = .ok r) ↔ HasSubstring (RegionShaped 0) arn.toList) ∧
    ((¬ HasSubstring (RegionShaped 0) arn.toList) →
      getRegion arn = .error "failed to get region") ∧
    getRegion "arn:aws:ecs:us-east-1:123456789012:task-definition/x:1" = .ok "us-east-1" := by
  have hiff : ∀ r, getRegion arn = .ok r ↔
      LeftmostSubstring (RegionShaped 0) arn.toList r.toList := by
    intro r
    rw [getRegion_eq_ok_iff, findSubmatch_regionPattern]
  have hnone : (¬ HasSubstring (RegionShaped 0) arn.toList) →
      getRegion arn = .error "failed to get region" := by
    intro hno
    rcases hfind : findSubmatch regionPattern arn.toList with _ | m
    · exact getRegion_of_findSubmatch_none arn hfind
    · obtain ⟨pre, post, hs, hshape, -⟩ := (findSubmatch_regionPattern arn.toList m).mp hfind
      exact absurd ⟨pre, m, post, hs, hshape⟩ hno
  refine ⟨hiff, ?_, hnone, by rfl⟩
  constructor
  · rintro ⟨r, hr⟩
    obtain ⟨pre, post, hs, hshape, -⟩ := (hiff r).mp hr
    exact ⟨pre, r.toList, post, hs, hshape⟩
  · intro hhas
    by_contra hno
    rcases hget : getRegion arn with e | r
    · obtain ⟨pre, m, post, hs, hshape⟩ := hhas
      have hhere : matchHere regionPattern (m ++ post) = some m :=
        (matchHere_regionPattern (m ++ post) m).mpr ⟨post, rfl, hshape⟩
      rcases hfind : findSubmatch regionPattern arn.toList with _ | m2
      · have hnone2 := findSubmatch_none regionPattern arn.toList hfind pre (m ++ post)
          (by rw [hs, List.append_assoc])
        rw [hnone2] at hhere
        exact absurd hhere (by simp)
      · have hok := (getRegion_eq_ok_iff arn (String.mk m2)).mpr hfind
        rw [hget] at hok
        exact absurd hok (by simp)
    · exact hno ⟨r, hget⟩

/-- C6 fails as stated (one or more letters in the middle): `ab--1` contains no
substring of the shape `[a-z]{2}-[a-z]+-[0-9]`, yet `getRegion` succeeds on it
and returns `ab--1`. -/
theorem getRegion_accepts_empty_middle :
    getRegion "ab--1" = .ok "ab--1" ∧ ¬ HasSubstring (RegionShaped 1) "ab--1".toList := by
  refine ⟨by rfl, ?_⟩
  rintro ⟨pre, m, post, hs, hshape⟩
  have hlen := RegionShaped.length_pos hshape
  have h5 : "ab--1".toList.length = 5 := by decide
  have hsum := congrArg List.length hs
  rw [h5] at hsum
  simp only [List.length_append] at hsum
  omega

/-! ### State aggregation -/

/-- Lookup after an assignment. -/
theorem mapGet_mapSet (m : InstanceMap) (k k2 : String) (v : Instance) :
    mapGet (mapSet m k v) k2 = if k = k2 then some v else mapGet m k2 := by
  induction m with
  | nil => simp [mapSet, mapGet]
  | cons p rest ih =>
    obtain ⟨k3, v3⟩ := p
    by_cases h3 : k3 = k
    · subst h3
      by_cases h2 : k3 = k2 <;> simp [mapSet, mapGet, h2]
    · by_cases h2 : k3 = k2
      · subst h2
        have hk : ¬ k = k3 := fun hk => h3 hk.symm
        simp [mapSet, mapGet, h3, hk]
      · simp [mapSet, mapGet, h3, h2, ih]

/-- A successful lookup returns an entry of the map. -/
theorem mem_of_mapGet (m : InstanceMap) (k : String) (v : Instance)
    (hget : mapGet m k = some v) : (k, v) ∈ m := by
  induction m with
  | nil => simp [mapGet] at hget
  | cons p rest ih =>
    obtain ⟨k3, v3⟩ := p
    by_cases h3 : k3 = k
    · simp only [mapGet, h3, if_true, Option.some.injEq] at hget
      simp [h3, hget]
    · simp only [mapGet, h3, if_false] at hget
      exact List.mem_cons_of_mem _ (ih hget)

/-- A lookup fails exactly on the names that are not keys. -/
theorem mapGet_eq_none_iff (m : InstanceMap) (k : String) :
    mapGet m k = none ↔ k ∉ m.map Prod.fst := by
  induction m with
  | nil => simp [mapGet]
  | cons p rest ih =>
    obtain ⟨k3, v3⟩ := p
    by_cases h3 : k3 = k
    · simp [mapGet, h3]
    · have h4 : ¬ k = k3 := fun hk => h3 hk.symm
      simp only [mapGet, h3, if_false, ih, List.map_cons, List.mem_cons, h4, false_or]

/-- With distinct keys, every entry is what the lookup of its key returns. -/
theorem mapGet_of_mem (m : InstanceMap) (k : String) (v : Instance)
    (hnodup : (m.map Prod.fst).Nodup) (hmem : (k, v) ∈ m) : mapGet m k = some v := by
  induction m with
  | nil => simp at hmem
  | cons p rest ih =>
    obtain ⟨k3, v3⟩ := p
    simp only [List.map_cons, List.nodup_cons] at hnodup
    rcases List.mem_cons.mp hmem with heq | hrest
    · simp only [Prod.mk.injEq] at heq
      simp [mapGet, heq.1, heq.2]
    · have hk : k ∈ rest.map Prod.fst := List.mem_map.mpr ⟨(k, v), hrest, rfl⟩
      have h3 : ¬ k3 = k := fun h3 => hnodup.1 (h3 ▸ hk)
      simp only [mapGet, h3, if_false]
      exact ih hnodup.2 hrest

/-- The receiving loop leaves alone the names no message carries. -/
theorem mapGet_drain_of_not_mem (msgs : List (String × Instance)) :
    ∀ (m : InstanceMap) (k : String), k ∉ msgs.map Prod.fst →
      mapGet (drain msgs m) k = mapGet m k := by
  induction msgs with
  | nil => intro m k _; rfl
  | cons p rest ih =>
    intro m k hk
    simp only [List.map_cons, List.mem_cons, not_or] at hk
    have hstep : drain (p :: rest) m = drain rest (mapSet m p.1 p.2) := rfl
    rw [hstep, ih _ k hk.2, mapGet_mapSet]
    have hne : ¬ p.1 = k := fun hp => hk.1 hp.symm
    simp [hne]

/-- The receiving loop stores every message under its name, when no two
messages carry the same name. -/
theorem mapGet_drain_of_mem (msgs : List (String × Instance)) :
    ∀ (m : InstanceMap) (k : String) (v : Instance), (msgs.map Prod.fst).Nodup →
      (k, v) ∈ msgs → mapGet (drain msgs m) k = some v := by
  induction msgs with
  | nil => intro m k v _ hmem; simp at hmem
  | cons p rest ih =>
    intro m k v hnodup hmem
    simp only [List.map_cons, List.nodup_cons] at hnodup
    have hstep : drain (p :: rest) m = drain rest (mapSet m p.1 p.2) := rfl
    rw [hstep]
    rcases List.mem_cons.mp hmem with heq | hrest
    · subst heq
      rw [mapGet_drain_of_not_mem rest _ _ hnodup.1, mapGet_mapSet]
      simp
    · exact ih _ k v hnodup.2 hrest

/-- When every goroutine publishes, the channel carries one message per started
entry, under the entry's name, holding what the goroutine computed. -/
theorem publishAll_some (run : Instance → Option Instance) :
    ∀ l : List (String × Instance), (∀ p ∈ l, ∃ i, run p.2 = some i) →
      ∃ msgs, publishAll run l = some msgs ∧ msgs.map Prod.fst = l.map Prod.fst ∧
        ∀ k inst, (k, inst) ∈ l → ∃ i, run inst = some i ∧ (k, i) ∈ msgs := by
  intro l
  induction l with
  | nil =>
    intro _
    exact ⟨[], rfl, rfl, fun k inst hmem => absurd hmem (List.not_mem_nil _)⟩
  | cons p rest ih =>
    intro hall
    obtain ⟨name, inst0⟩ := p
    obtain ⟨i0, hi0⟩ := hall (name, inst0) (List.mem_cons_self _ _)
    obtain ⟨msgs, hmsgs, hkeys, hvals⟩ :=
      ih (fun q hq => hall q (List.mem_cons_of_mem _ hq))
    refine ⟨(name, i0) :: msgs, ?_, ?_, ?_⟩
    · simp only [publishAll]
      rw [show run inst0 = some i0 from hi0, hmsgs]
    · simp [hkeys]
    · intro k inst hmem
      rcases List.mem_cons.mp hmem with heq | hrest
      · simp only [Prod.mk.injEq] at heq
        refine ⟨i0, ?_, ?_⟩
        · rw [heq.2]; exact hi0
        · rw [heq.1]; exact List.mem_cons_self _ _
      · obtain ⟨i, hi, him⟩ := hvals k inst hrest
        exact ⟨i, hi, List.mem_cons_of_mem _ him⟩

/-- When the scalable-target fetch succeeds and every goroutine publishes,
`Populate` returns a nil error and a map that holds, under each input name, what
the goroutine of that entry computed, and nothing under any other name:
whatever the order in which the goroutines publish. -/
theorem Populate_returns (h : Helpers) (svc : Ecs) (ascv : Autoscaling) (fuel : Nat)
    (completion : List (String × Instance)) (instances : InstanceMap) (details : Bool)
    (ao : List ScalableTarget)
    (hao : ascv.describeScalableTargets "ecs" (instances.map (fun p => resourceId p.2)) = .ok ao)
    (hperm : completion.Perm instances) (hnodup : (instances.map Prod.fst).Nodup)
    (hall : ∀ p ∈ instances, ∃ i, populateUnit h svc ao details fuel p.2 = some i) :
    ∃ res, Populate h svc ascv fuel completion instances details = some (res, none) ∧
      (∀ name inst, mapGet instances name = some inst →
        mapGet res name = populateUnit h svc ao details fuel inst) ∧
      (∀ name, mapGet instances name = none → mapGet res name = none) := by
  obtain ⟨msgs, hmsgs, hkeys, hvals⟩ :=
    publishAll_some (populateUnit h svc ao details fuel) completion
      (fun p hp => hall p (hperm.mem_iff.mp hp))
  have hkeysPerm : (msgs.map Prod.fst).Perm (instances.map Prod.fst) := by
    rw [hkeys]
    exact hperm.map _
  have hmsgsNodup : (msgs.map Prod.fst).Nodup := hkeysPerm.nodup_iff.mpr hnodup
  refine ⟨drain msgs instances, ?_, ?_, ?_⟩
  · simp only [Populate, hao, hmsgs]
  · intro name inst hget
    have hmem : (name, inst) ∈ completion :=
      hperm.mem_iff.mpr (mem_of_mapGet instances name inst hget)
    obtain ⟨i, hi, him⟩ := hvals name inst hmem
    rw [hi]
    exact mapGet_drain_of_mem msgs instances name i hmsgsNodup him
  · intro name hget
    have hnot : name ∉ msgs.map Prod.fst := by
      intro hin
      exact (mapGet_eq_none_iff instances name).mp hget (hkeysPerm.mem_iff.mp hin)
    rw [mapGet_drain_of_not_mem msgs instances name hnot]
    exact hget

/-- A service description with no service, or with more than one, makes
`getServiceInfo` fail. -/
theorem getServiceInfo_of_bad_count (inst : Instance) (svc : Ecs) (services : List Service)
    (hdesc : svc.describeServices inst.cluster [inst.service] = .ok services)
    (hbad : services.length = 0 ∨ services.length > 1) :
    getServiceInfo inst svc =
      .error (if services.length = 0 then "service not found with name " ++ inst.service
        else "too many services returned for " ++ inst.service) := by
  rcases hbad with h0 | h1
  · simp only [getServiceInfo, hdesc, h0, if_true]
  · have h0 : ¬ services.length = 0 := by omega
    simp only [getServiceInfo, hdesc, h0, h1, if_true, if_false]

/-- The goroutine of an instance whose inspection fails publishes the instance
with a state that holds the error and is otherwise the zero state. -/
theorem populateUnit_of_error (h : Helpers) (svc : Ecs) (ao : List ScalableTarget)
    (details : Bool) (fuel : Nat) (inst : Instance) (e : Err)
    (hinfo : getServiceInfo inst svc = .error e) :
    populateUnit h svc ao details fuel inst = some (inst.SetState { error := some e }) := by
  simp only [populateUnit, hinfo]

/-- The loop over the scalable targets changes the desired count only, to the
`MinCapacity` of the last target carrying the resource id of the instance. -/
theorem foldl_matchTarget (i : Instance) (ao : List ScalableTarget) (st : State) :
    ao.foldl (matchTarget i) st =
      { st with
        desiredCount :=
          match (ao.filter (fun t => decide (t.resourceId = resourceId i))).getLast? with
          | some t => t.minCapacity
          | none => st.desiredCount } := by
  induction ao using List.reverseRecOn with
  | nil => simp
  | append_singleton ts t ih =>
    rw [List.foldl_append, ih]
    by_cases ht : t.resourceId = resourceId i
    · simp [matchTarget, ht, List.filter_append]
    · simp [matchTarget, ht, List.filter_append]

/-- The goroutine of an instance whose inspection succeeds, once the failure
lookup (made only when pending) has returned `e`: the published state holds the
two health flags of the service, the `MinCapacity` of the last scalable target
with the instance's resource id (zero when there is none), and the error `e`
unless the task details were asked for and failed. -/
theorem populateUnit_of_ok (h : Helpers) (svc : Ecs) (ao : List ScalableTarget)
    (details : Bool) (fuel : Nat) (inst : Instance) (td : TaskDefinition) (s : Service)
    (e : Option Err)
    (hinfo : getServiceInfo inst svc = .ok (td, s))
    (hfail : (if isPending s = true then getError svc (withDefinition h td inst) fuel
      else some none) = some e) :
    ∃ i, populateUnit h svc ao details fuel inst = some i ∧
      i.currentState.isPending = isPending s ∧
      i.currentState.isRunning = isRunning s ∧
      i.currentState.desiredCount = scalableMinCapacity ao (resourceId inst) ∧
      i.currentState.error =
        (if details = true then
          match (h.getTasksInfo (withDefinition h td inst) svc).2 with
          | some err => some err
          | none => e
        else e) := by
  have hid : resourceId (withDefinition h td inst) = resourceId inst := rfl
  simp only [populateUnit, hinfo, hfail, foldl_matchTarget, hid]
  refine ⟨_, rfl, ?_, ?_, ?_, ?_⟩
  · rcases hreg : getRegion td.taskDefinitionArn with e2 | region <;>
      cases details <;> simp [Instance.SetState] <;> split <;> rfl
  · rcases hreg : getRegion td.taskDefinitionArn with e2 | region <;>
      cases details <;> simp [Instance.SetState] <;> split <;> rfl
  · rcases hreg : getRegion td.taskDefinitionArn with e2 | region <;>
      cases details <;> simp [Instance.SetState, scalableMinCapacity] <;> split <;> rfl
  · rcases hreg : getRegion td.taskDefinitionArn with e2 | region <;>
      cases details <;> simp [Instance.SetState] <;> split <;> rfl

/-- A STOPPED listing that ends at its first page is read in one call. -/
theorem getTaskDetails_first_page (svc : Ecs) (inst : Instance)
    (hfinal : firstPageFinal svc inst) (fuel : Nat) (acc : List Task) :
    ∃ r, getTaskDetails svc inst (fuel + 1) acc "" = some r := by
  have hempty : ¬ ("".length > 0) := by decide
  simp only [getTaskDetails, hempty, if_false]
  rcases hlist : svc.listTasks
      { cluster := inst.cluster, serviceName := inst.service, desiredStatus := "STOPPED",
        nextToken := none } with err | out
  · exact ⟨_, rfl⟩
  · have hdone : ∀ tasks : List Task, ∃ r,
        (match out.nextToken with
          | none => some (Except.ok tasks)
          | some tok =>
            if tok.length = 0 then some (Except.ok tasks)
            else getTaskDetails svc inst fuel tasks "") = some r := by
      intro tasks
      rcases htok : out.nextToken with _ | tok
      · exact ⟨_, rfl⟩
      · have hzero : tok.length = 0 := hfinal out hlist tok htok
        simp only [hzero, if_true]
        exact ⟨_, rfl⟩
    by_cases harns : out.taskArns.length > 0
    · simp only [harns, if_true]
      rcases hdesc : svc.describeTasks inst.cluster out.taskArns with err | described
      · exact ⟨_, rfl⟩
      · exact hdone _
    · simp only [harns, if_false]
      exact hdone _

/-- With a STOPPED listing that ends at its first page, `getError` returns. -/
theorem getError_first_page (svc : Ecs) (inst : Instance)
    (hfinal : firstPageFinal svc inst) (fuel : Nat) :
    ∃ e, getError svc inst (fuel + 1) = some e := by
  obtain ⟨r, hr⟩ := getTaskDetails_first_page svc inst hfinal fuel []
  rcases r with err | tasks
  · exact ⟨some err, by simp only [getError, hr]⟩
  · rcases hte : getTaskError tasks with ⟨count, _ | reason⟩
    · exact ⟨none, by simp only [getError, hr, hte]⟩
    · exact ⟨some (failedTasksMessage count reason), by simp only [getError, hr, hte]⟩

/-- With a STOPPED listing that ends at its first page, the goroutine of the
instance publishes. -/
theorem populateUnit_publishes (h : Helpers) (svc : Ecs) (ao : List ScalableTarget)
    (details : Bool) (fuel : Nat) (inst : Instance) (hfinal : firstPageFinal svc inst) :
    ∃ i, populateUnit h svc ao details (fuel + 1) inst = some i := by
  rcases hinfo : getServiceInfo inst svc with e | ⟨td, s⟩
  · exact ⟨_, populateUnit_of_error h svc ao details (fuel + 1) inst e hinfo⟩
  · have hfail : ∃ e, (if isPending s = true then
        getError svc (withDefinition h td inst) (fuel + 1) else some none) = some e := by
      by_cases hp : isPending s = true
      · simp only [hp, if_true]
        exact getError_first_page svc (withDefinition h td inst) hfinal fuel
      · simp only [hp, if_false]
        exact ⟨none, rfl⟩
    obtain ⟨e, he⟩ := hfail
    obtain ⟨i, hi, -⟩ := populateUnit_of_ok h svc ao details (fuel + 1) inst td s e hinfo he
    exact ⟨i, hi⟩

/-- C7, as the code has it: when the batched scalable-target fetch fails,
`Populate` returns that error together with the input map. When it succeeds,
and every stopped-task listing ends at its first page, `Populate` returns a nil
error and a map with exactly the input names, whatever the other calls answer
and in whatever order the goroutines publish. In that map the `State.Error` of
an instance is the inspection failure when its inspection failed; otherwise the
task-details failure when details were asked for and that fetch failed;
otherwise the stopped-task listing failure when the instance is pending and
the listing failed. -/
theorem Populate_top_level_error (h : Helpers) (svc : Ecs) (ascv : Autoscaling) (fuel : Nat)
    (completion : List (String × Instance)) (instances : InstanceMap) (details : Bool) :
    (∀ e, ascv.describeScalableTargets "ecs" (instances.map (fun p => resourceId p.2))
        = .error e →
      Populate h svc ascv fuel completion instances details = some (instances, some e)) ∧
    (∀ ao, ascv.describeScalableTargets "ecs" (instances.map (fun p => resourceId p.2))
        = .ok ao →
      completion.Perm instances → (instances.map Prod.fst).Nodup →
      (∀ p ∈ instances, firstPageFinal svc p.2) →
      ∃ res, Populate h svc ascv (fuel + 1) completion instances details = some (res, none) ∧
        (∀ name, mapGet instances name = none → mapGet res name = none) ∧
        ∀ name inst, mapGet instances name = some inst →
          ∃ i, mapGet res name = some i ∧
            (∀ e, getServiceInfo inst svc = .error e → i.currentState.error = some e) ∧
            (∀ td s e, getServiceInfo inst svc = .ok (td, s) → details = true →
              (h.getTasksInfo (withDefinition h td inst) svc).2 = some e →
              i.currentState.error = some e) ∧
            (∀ td s e, getServiceInfo inst svc = .ok (td, s) → isPending s = true →
              getTaskDetails svc (withDefinition h td inst) (fuel + 1) [] "" =
                some (.error e) →
              (details = false ∨ (h.getTasksInfo (withDefinition h td inst) svc).2 = none) →
              i.currentState.error = some e)) := by
  constructor
  · intro e hao
    simp only [Populate, hao]
  · intro ao hao hperm hnodup hpages
    obtain ⟨res, hres, hvals, hnone⟩ :=
      Populate_returns h svc ascv (fuel + 1) completion instances details ao hao hperm hnodup
        (fun p hp => populateUnit_publishes h svc ao details fuel p.2 (hpages p hp))
    refine ⟨res, hres, hnone, ?_⟩
    intro name inst hget
    have hfinal : firstPageFinal svc inst :=
      hpages (name, inst) (mem_of_mapGet instances name inst hget)
    rcases hinfo : getServiceInfo inst svc with e | ⟨td, s⟩
    · refine ⟨inst.SetState { error := some e }, ?_, ?_, ?_, ?_⟩
      · rw [hvals name inst hget]
        exact populateUnit_of_error h svc ao details (fuel + 1) inst e hinfo
      · intro e2 he2
        rw [← Except.error.inj he2]
        rfl
      · intro td s e2 hcontra
        exact absurd hcontra (by simp)
      · intro td s e2 hcontra
        exact absurd hcontra (by simp)
    · have hfail : ∃ e, (if isPending s = true then
          getError svc (withDefinition h td inst) (fuel + 1) else some none) = some e := by
        by_cases hp : isPending s = true
        · simp only [hp, if_true]
          exact getError_first_page svc (withDefinition h td inst) hfinal fuel
        · simp only [hp, if_false]
          exact ⟨none, rfl⟩
      obtain ⟨e, he⟩ := hfail
      obtain ⟨i, hi, -, -, -, herr⟩ :=
        populateUnit_of_ok h svc ao details (fuel + 1) inst td s e hinfo he
      refine ⟨i, ?_, ?_, ?_, ?_⟩
      · rw [hvals name inst hget]
        exact hi
      · intro e2 hcontra
        exact absurd hcontra (by simp)
      · intro td2 s2 e2 hok hdet hinfoErr
        obtain ⟨rfl, rfl⟩ := Prod.mk.inj (Except.ok.inj hok)
        rw [herr, hdet, if_pos rfl, hinfoErr]
      · intro td2 s2 e2 hok hpend hlist hquiet
        obtain ⟨rfl, rfl⟩ := Prod.mk.inj (Except.ok.inj hok)
        have he2 : e = some e2 := by
          simp only [hpend, if_true, getError, hlist] at he
          exact (Option.some.inj he).symm
        rw [herr, he2]
        rcases hquiet with hd | hi2
        · simp [hd]
        · simp [hi2]

/-- Every STOPPED listing of the scenario endpoint ends at its first page. -/
theorem fleetEcs_firstPageFinal (inst : Instance) : firstPageFinal fleetEcs inst := by
  intro out hout tok htok
  simp only [fleetEcs, Except.ok.injEq] at hout
  rw [← hout] at htok
  exact absurd htok (by simp)

/-- C7, at a concrete input: with a failing scalable-target fetch the error
comes back at the top level; with a working one the error of the unknown
service `web` is recorded in its state and the top-level error is nil. -/
theorem Populate_top_level_error_witness :
    Populate demoHelpers fleetEcs failingAscv 1 fleet.reverse fleet true =
        some (fleet, some "ThrottlingException") ∧
      ∃ res, Populate demoHelpers fleetEcs fleetAscv 1 fleet.reverse fleet true =
          some (res, none) ∧
        ∃ i, mapGet res "web" = some i ∧
          i.currentState.error = some "service not found with name web" := by
  refine ⟨?_, ?_⟩
  · exact (Populate_top_level_error demoHelpers fleetEcs failingAscv 1 fleet.reverse fleet
      true).1 _ rfl
  · obtain ⟨res, hres, -, hvals⟩ :=
      (Populate_top_level_error demoHelpers fleetEcs fleetAscv 0 fleet.reverse fleet true).2 _
        rfl (List.reverse_perm fleet) (by decide) (fun p _ => fleetEcs_firstPageFinal p.2)
    obtain ⟨i, hi, herr, -⟩ := hvals "web" demoInstance (by decide)
    exact ⟨res, hres, i, hi, herr _ (by rfl)⟩

/-- C7 fails as stated, twice. When the batched scalable-target fetch fails,
`Populate` returns that failure as its top-level error, and no instance state
records it. And when, for a pending instance, both the stopped-task listing and
the task-details fetch fail, the `State.Error` of the instance is the
task-details failure: the listing failure is recorded nowhere. -/
theorem Populate_returns_fetch_error :
    (Populate demoHelpers fleetEcs failingAscv 1 fleet.reverse fleet false =
        some (fleet, some "ThrottlingException") ∧
      ∀ p ∈ fleet, p.2.currentState.error = none) ∧
    (getTaskDetails brokenListEcs demoInstance 1 [] "" =
        some (.error "ListTasks: AccessDenied") ∧
      (Populate brokenHelpers brokenListEcs fleetAscv 1 [("web", demoInstance)]
          [("web", demoInstance)] true).bind
        (fun r => (mapGet r.1 "web").map (fun i => i.currentState.error)) =
        some (some "DescribeTasks: Throttled") ∧
      (Populate brokenHelpers brokenListEcs fleetAscv 1 [("web", demoInstance)]
          [("web", demoInstance)] true).map Prod.snd = some none) := by
  refine ⟨⟨by rfl, by decide⟩, by rfl, by rfl, by rfl⟩

/-- When the goroutine of an inspected instance publishes, its failure lookup
has returned. -/
theorem populateUnit_ok_inv (h : Helpers) (svc : Ecs) (ao : List ScalableTarget)
    (details : Bool) (fuel : Nat) (inst i : Instance) (td : TaskDefinition) (s : Service)
    (hinfo : getServiceInfo inst svc = .ok (td, s))
    (hi : populateUnit h svc ao details fuel inst = some i) :
    ∃ e, (if isPending s = true then getError svc (withDefinition h td inst) fuel
      else some none) = some e := by
  rcases hf : (if isPending s = true then getError svc (withDefinition h td inst) fuel
      else some none) with _ | e
  · simp [populateUnit, hinfo, hf] at hi
  · exact ⟨e, rfl⟩

/-- When the scalable-target fetch succeeds and the goroutines of the other
entries publish: if the service description of an input instance returns zero
services or more than one, then the instance stored under its name in the
result has a non-nil `State.Error` (the not-found or the too-many error) and
`IsPending = IsRunning = false`; under every other name the result holds what
that entry's own goroutine computed. -/
theorem Populate_service_lookup_failure (h : Helpers) (svc : Ecs) (ascv : Autoscaling)
    (fuel : Nat) (completion : List (String × Instance)) (instances : InstanceMap)
    (details : Bool) (ao : List ScalableTarget) (name : String) (inst : Instance)
    (services : List Service)
    (hao : ascv.describeScalableTargets "ecs" (instances.map (fun p => resourceId p.2)) = .ok ao)
    (hperm : completion.Perm instances) (hnodup : (instances.map Prod.fst).Nodup)
    (hget : mapGet instances name = some inst)
    (hdesc : svc.describeServices inst.cluster [inst.service] = .ok services)
    (hbad : services.length = 0 ∨ services.length > 1)
    (hothers : ∀ p ∈ instances, p.1 ≠ name →
      ∃ i, populateUnit h svc ao details fuel p.2 = some i) :
    ∃ res, Populate h svc ascv fuel completion instances details = some (res, none) ∧
      (∃ i, mapGet res name = some i ∧ i.currentState.error ≠ none ∧
        i.currentState.error =
          some (if services.length = 0 then "service not found with name " ++ inst.service
            else "too many services returned for " ++ inst.service) ∧
        i.currentState.isPending = false ∧ i.currentState.isRunning = false) ∧
      (∀ other inst2, other ≠ name → mapGet instances other = some inst2 →
        mapGet res other = populateUnit h svc ao details fuel inst2) := by
  have hinfo := getServiceInfo_of_bad_count inst svc services hdesc hbad
  have hunit := populateUnit_of_error h svc ao details fuel inst _ hinfo
  have hall : ∀ p ∈ instances, ∃ i, populateUnit h svc ao details fuel p.2 = some i := by
    intro p hp
    by_cases hname : p.1 = name
    · have hp2 : mapGet instances name = some p.2 := by
        apply mapGet_of_mem instances name p.2 hnodup
        rw [← hname]
        exact hp
      rw [hget] at hp2
      rw [← Option.some.inj hp2]
      exact ⟨_, hunit⟩
    · exact hothers p hp hname
  obtain ⟨res, hres, hvals, -⟩ :=
    Populate_returns h svc ascv fuel completion instances details ao hao hperm hnodup hall
  refine ⟨res, hres, ⟨_, (hvals name inst hget).trans hunit, ?_, rfl, rfl, rfl⟩, ?_⟩
  · simp [Instance.SetState]
  · intro other inst2 _ hget2
    exact hvals other inst2 hget2

/-- A goroutine that never publishes keeps the receiving loop waiting: the
channel never carries all the messages. -/
theorem publishAll_none (run : Instance → Option Instance) :
    ∀ l : List (String × Instance), (∃ p ∈ l, run p.2 = none) → publishAll run l = none := by
  intro l
  induction l with
  | nil =>
    rintro ⟨p, hp, -⟩
    exact absurd hp (List.not_mem_nil _)
  | cons q rest ih =>
    rintro ⟨p, hp, hnone⟩
    obtain ⟨name, inst0⟩ := q
    rcases List.mem_cons.mp hp with heq | hrest
    · subst heq
      simp only [publishAll]
      rw [show run inst0 = none from hnone]
    · have hrec := ih ⟨p, hrest, hnone⟩
      simp only [publishAll, hrec]
      rcases run inst0 with _ | i <;> rfl

/-- The goroutine of an instance that is pending and whose STOPPED listing
names a second page never publishes. -/
theorem populateUnit_never_publishes (h : Helpers) (svc : Ecs) (ao : List ScalableTarget)
    (details : Bool) (fuel : Nat) (inst : Instance) (td : TaskDefinition) (s : Service)
    (out : ListTasksOutput) (tok : String)
    (hinfo : getServiceInfo inst svc = .ok (td, s)) (hpend : isPending s = true)
    (hlist : svc.listTasks
      { cluster := inst.cluster, serviceName := inst.service, desiredStatus := "STOPPED",
        nextToken := none } = .ok out)
    (htok : out.nextToken = some tok) (hne : ¬ tok.length = 0)
    (hdesc : ∀ arns, ∃ ts, svc.describeTasks inst.cluster arns = .ok ts) :
    populateUnit h svc ao details fuel inst = none := by
  have hdet := getTaskDetails_never_returns svc (withDefinition h td inst) out tok hlist htok
    hne hdesc fuel []
  simp only [populateUnit, hinfo, hpend, if_true, getError, hdet]

/-- C8 (the code beside a pending instance with a second STOPPED page): the
scalable-target fetch succeeds and the service description of `web` returns
zero services, so `web` should come back with its error set and both flags
false. But the instance `api` of the same map is pending and its STOPPED
listing has a second page: its goroutine never publishes, and `Populate`
returns no result at all, in whatever order the goroutines publish. -/
theorem Populate_blocks_beside_failed_lookup :
    halfStuckEcs.describeServices demoInstance.cluster [demoInstance.service] = .ok [] ∧
    fleetAscv.describeScalableTargets "ecs" (fleet.map (fun p => resourceId p.2)) =
      .ok [{ resourceId := "service/prod/web", minCapacity := 3 },
           { resourceId := "service/prod/api", minCapacity := 2 }] ∧
    populateUnit demoHelpers halfStuckEcs
        [{ resourceId := "service/prod/web", minCapacity := 3 },
         { resourceId := "service/prod/api", minCapacity := 2 }] false 1 demoInstance =
      some (demoInstance.SetState { error := some "service not found with name web" }) ∧
    (∀ fuel completion, completion.Perm fleet →
      Populate demoHelpers halfStuckEcs fleetAscv fuel completion fleet false = none) := by
  refine ⟨by rfl, rfl, by rfl, ?_⟩
  intro fuel completion hperm
  have hinfo : getServiceInfo apiInstance halfStuckEcs =
      .ok ({ taskDefinitionArn := "" }, startingService) := by rfl
  have hunit : ∀ ao, populateUnit demoHelpers halfStuckEcs ao false fuel apiInstance = none :=
    fun ao => populateUnit_never_publishes demoHelpers halfStuckEcs ao false fuel apiInstance
      { taskDefinitionArn := "" } startingService
      { taskArns := ["t1"], nextToken := some "p2" } "p2" hinfo (by decide) rfl rfl
      (by decide) (fun arns => ⟨_, rfl⟩)
  have hmem : ("api", apiInstance) ∈ completion :=
    hperm.mem_iff.mpr (by decide)
  simp only [Populate, fleetAscv,
    publishAll_none _ completion ⟨("api", apiInstance), hmem, hunit _⟩]

/-- The capacity looked up is that of the target carrying the resource id, when
only one target carries it. -/
theorem scalableMinCapacity_of_unique (ao : List ScalableTarget) (id : String)
    (t : ScalableTarget) (hmem : t ∈ ao) (hid : t.resourceId = id)
    (huniq : ∀ t2 ∈ ao, t2.resourceId = id → t2 = t) :
    scalableMinCapacity ao id = t.minCapacity := by
  have hin : t ∈ ao.filter (fun t => decide (t.resourceId = id)) :=
    List.mem_filter.mpr ⟨hmem, by simp [hid]⟩
  rcases hlast : (ao.filter (fun t => decide (t.resourceId = id))).getLast? with _ | t2
  · rw [List.getLast?_eq_none_iff.mp hlast] at hin
    exact absurd hin (List.not_mem_nil _)
  · have hmem2 := List.mem_filter.mp (List.mem_of_getLast?_eq_some hlast)
    have ht2 : t2 = t := huniq t2 hmem2.1 (by simpa using hmem2.2)
    simp only [scalableMinCapacity, hlast, ht2]

/-- The capacity looked up is zero when no target carries the resource id. -/
theorem scalableMinCapacity_of_absent (ao : List ScalableTarget) (id : String)
    (habs : ∀ t ∈ ao, t.resourceId ≠ id) : scalableMinCapacity ao id = 0 := by
  have hnil : ao.filter (fun t => decide (t.resourceId = id)) = [] := by
    apply List.filter_eq_nil_iff.mpr
    intro t ht
    simpa using habs t ht
  simp [scalableMinCapacity, hnil]

/-- C9, as the code has it: when every stopped-task listing ends at its first
page, `Populate` returns a result, and in it the `State.DesiredCount` of an
instance whose inspection succeeded is the `MinCapacity` of the last scalable
target of the pre-fetched list whose resource id is exactly
`service/<cluster>/<service>`: that of the one such target when there is just
one, and zero when there is none. For an instance whose inspection failed it is
zero, whatever the list holds. -/
theorem Populate_desiredCount (h : Helpers) (svc : Ecs) (ascv : Autoscaling)
    (fuel : Nat) (completion : List (String × Instance)) (instances : InstanceMap)
    (details : Bool) (ao : List ScalableTarget) (name : String) (inst : Instance)
    (hao : ascv.describeScalableTargets "ecs" (instances.map (fun p => resourceId p.2)) = .ok ao)
    (hperm : completion.Perm instances) (hnodup : (instances.map Prod.fst).Nodup)
    (hpages : ∀ p ∈ instances, firstPageFinal svc p.2)
    (hget : mapGet instances name = some inst) :
    ∃ res i, Populate h svc ascv (fuel + 1) completion instances details = some (res, none) ∧
      mapGet res name = some i ∧
      resourceId inst = "service/" ++ inst.cluster ++ "/" ++ inst.service ∧
      ((∃ r, getServiceInfo inst svc = .ok r) →
        i.currentState.desiredCount = scalableMinCapacity ao (resourceId inst) ∧
        (∀ t ∈ ao, t.resourceId = resourceId inst →
          (∀ t2 ∈ ao, t2.resourceId = resourceId inst → t2 = t) →
          i.currentState.desiredCount = t.minCapacity) ∧
        ((∀ t ∈ ao, t.resourceId ≠ resourceId inst) → i.currentState.desiredCount = 0)) ∧
      ((∃ e, getServiceInfo inst svc = .error e) → i.currentState.desiredCount = 0) := by
  have hall : ∀ p ∈ instances, ∃ i, populateUnit h svc ao details (fuel + 1) p.2 = some i :=
    fun p hp => populateUnit_publishes h svc ao details fuel p.2 (hpages p hp)
  obtain ⟨res, hres, hvals, -⟩ :=
    Populate_returns h svc ascv (fuel + 1) completion instances details ao hao hperm hnodup hall
  obtain ⟨i, hi⟩ := hall (name, inst) (mem_of_mapGet instances name inst hget)
  refine ⟨res, i, hres, (hvals name inst hget).trans hi, rfl, ?_, ?_⟩
  · rintro ⟨⟨td, s⟩, hinfo⟩
    obtain ⟨e, he⟩ := populateUnit_ok_inv h svc ao details (fuel + 1) inst i td s hinfo hi
    obtain ⟨i2, hi2, -, -, hcount, -⟩ :=
      populateUnit_of_ok h svc ao details (fuel + 1) inst td s e hinfo he
    have hsame : i2 = i := Option.some.inj (hi2.symm.trans hi)
    rw [hsame] at hcount
    refine ⟨hcount, ?_, ?_⟩
    · intro t hmem hid huniq
      rw [hcount]
      exact scalableMinCapacity_of_unique ao _ t hmem hid huniq
    · intro habs
      rw [hcount]
      exact scalableMinCapacity_of_absent ao _ habs
  · rintro ⟨e, hinfo⟩
    have hunit := populateUnit_of_error h svc ao details (fuel + 1) inst e hinfo
    have hsame : i = inst.SetState { error := some e } := Option.some.inj (hi.symm.trans hunit)
    rw [hsame]
    rfl

/-- C9, at a concrete input: the inspected service `api` gets the `MinCapacity`
2 of its scalable target. -/
theorem Populate_desiredCount_witness :
    ∃ res i, Populate demoHelpers fleetEcs fleetAscv 1 fleet.reverse fleet false =
        some (res, none) ∧
      mapGet res "api" = some i ∧ i.currentState.desiredCount = 2 := by
  obtain ⟨res, i, hres, hi, -, hok, -⟩ :=
    Populate_desiredCount demoHelpers fleetEcs fleetAscv 0 fleet.reverse fleet false
      [{ resourceId := "service/prod/web", minCapacity := 3 },
       { resourceId := "service/prod/api", minCapacity := 2 }]
      "api" apiInstance rfl (List.reverse_perm fleet) (by decide)
      (fun p _ => fleetEcs_firstPageFinal p.2) (by decide)
  refine ⟨res, i, hres, hi, ?_⟩
  rw [(hok ⟨_, by rfl⟩).1]
  decide

/-- C9 fails as stated: the scalable-target list holds a target whose resource
id is exactly `service/prod/web` with `MinCapacity` 3, yet the instance `web`,
whose inspection fails, has `State.DesiredCount` 0 in the result. -/
theorem Populate_desiredCount_zero_on_failed_inspection :
    fleetAscv.describeScalableTargets "ecs" (fleet.map (fun p => resourceId p.2)) =
      .ok [{ resourceId := "service/prod/web", minCapacity := 3 },
           { resourceId := "service/prod/api", minCapacity := 2 }] ∧
    resourceId demoInstance = "service/prod/web" ∧
    (Populate demoHelpers fleetEcs fleetAscv 1 fleet.reverse fleet false).bind
      (fun r => (mapGet r.1 "web").map (fun i => i.currentState.desiredCount)) = some 0 := by
  refine ⟨rfl, by decide, by rfl⟩

/-- On an instance that is pending and whose STOPPED listing has a second page,
the goroutine never publishes and `Populate` waits forever, although the
scalable-target fetch succeeded. -/
theorem Populate_waits_on_second_page (fuel : Nat) :
    Populate demoHelpers stuckEcs fleetAscv fuel [("web", demoInstance)]
      [("web", demoInstance)] false = none := by
  have hinfo : getServiceInfo demoInstance stuckEcs =
      .ok ({ taskDefinitionArn := "" }, startingService) := by rfl
  have hunit : ∀ ao, populateUnit demoHelpers stuckEcs ao false fuel demoInstance = none :=
    fun ao => populateUnit_never_publishes demoHelpers stuckEcs ao false fuel demoInstance
      { taskDefinitionArn := "" } startingService
      { taskArns := ["t1"], nextToken := some "p2" } "p2" hinfo (by decide) rfl rfl
      (by decide) (fun arns => ⟨_, rfl⟩)
  simp only [Populate, fleetAscv, publishAll, hunit]

end Udeploy
